import Mathlib

/-! # HttpsClient: a single-use request wrapper around the curl easy interface

Shallow embedding of `src/HttpsClient.h` and `src/HttpsClient.cpp`.

* An `HttpsClient` value is the tuple of the private fields of the C++ class.
* Every member function is a pure function returning an `Outcome`: the value
  returned, the instance afterwards, and the ordered trace of calls made to the
  transfer engine and to the user's callbacks.
* The transfer engine (libcurl) is not part of the repository.  What it answers
  during one request is an explicit parameter, `Env`: the handle returned by
  `curl_easy_init`, the code returned by each `curl_easy_setopt`, what
  `curl_easy_perform` delivers to the registered callbacks and the code it
  returns.  `Env` also says whether a C++ allocation inside `DoReq` throws
  (`std::bad_alloc`), the only source of the exceptions that
  `DoReqWithException` catches.
* It says as well whether each `curl_slist_append` succeeds: the engine returns
  null when it cannot allocate, and leaves the list it was given allocated.
* A `std::string` is a `String`; what reaches the engine is its `c_str()`, the
  characters before the first NUL.  Diagnostics written to `std::cout` are not
  part of the model.
-/

namespace agile.https

/-! ## Engine-side types (from `curl/curl.h`) -/

/-- The engine result code `CURLcode`. -/
abbrev CURLcode := Nat

/-- The success sentinel. -/
def CURLE_OK : CURLcode := 0

/-- Code returned by `curl_easy_perform` when a write callback reports a short count. -/
def CURLE_WRITE_ERROR : CURLcode := 23

/-- Code returned by `curl_easy_perform` when a progress callback returns non-zero. -/
def CURLE_ABORTED_BY_CALLBACK : CURLcode := 42

/-- An engine handle `CURL*` that is not null (its address). -/
abbrev CURL := Nat

/-- Received bytes (`char*` buffer contents, `std::string` response body). -/
abbrev Bytes := List UInt8

/-- The C string `s.c_str()` as the engine reads it: the characters of `s` before
the first NUL. -/
def c_str (s : String) : String :=
  String.mk (s.data.takeWhile (fun c => c ≠ Char.ofNat 0))

/-- Width of `size_t` arithmetic. -/
def SIZE_MOD : Nat := 2 ^ 64

/-- A C `double`: not-a-number, an infinity, or a finite value.  Only the
comparison with zero and the conversion to `uint64_t` are used, both exact. -/
inductive Double where
  | nan
  | inf (negative : Bool)
  | fin (q : ℚ)
  deriving DecidableEq

/-- The C++ test `d > 0`. -/
def Double.gtZero : Double → Bool
  | .nan => false
  | .inf negative => !negative
  | .fin q => decide (0 < q)

/-- The values C++ converts to `uint64_t` with a defined result: finite, and
representable after truncation toward zero. -/
def Double.convertible : Double → Prop
  | .fin q => -1 < q ∧ q < 2 ^ 64
  | _ => False

instance Double.decidableConvertible : DecidablePred Double.convertible
  | .fin q => inferInstanceAs (Decidable (-1 < q ∧ q < 2 ^ 64))
  | .nan => inferInstanceAs (Decidable False)
  | .inf _ => inferInstanceAs (Decidable False)

/-- The implicit conversion `double → uint64_t` at the callback call: truncation
toward zero.  Where C++ leaves the conversion undefined (`convertible` fails)
the model returns 0; the statements about a transfer assume `convertible`
wherever the source converts. -/
def Double.toUInt64 : Double → Nat
  | .fin q => if 0 ≤ q ∧ Rat.floor q < 2 ^ 64 then (Rat.floor q).toNat else 0
  | _ => 0

/-! ## The result struct and the client class -/

/-- Mirror of `struct HttpsResult`. -/
structure HttpsResult where
  code : CURLcode
  body : Bytes
  deriving DecidableEq

/-- Mirror of `HttpsClient::HttpsOnData`, a `std::function`: empty (`none`) or a
callable, identified by a number. -/
abbrev HttpsOnData := Option Nat

/-- Mirror of `HttpsClient::HttpsProgress`. -/
abbrev HttpsProgress := Option Nat

def kHttpsRecvTimeoutSec : Nat := 30

def kHttpsConnectTimeoutSec : Nat := 10

/-- The private fields of `class HttpsClient`.  `pcurl_ = none` is the null
handle; `header_ = []` is the null `curl_slist*` (a `curl_slist` is either null
or a non-empty chain of strings). -/
structure HttpsClient where
  get_flag_ : Bool
  pcurl_ : Option CURL
  header_ : List String
  on_data_ : HttpsOnData
  progress_ : HttpsProgress
  host_ : String
  client_cert_path_ : String
  client_key_path_ : String
  recv_data_timeout_ : Nat
  connect_timeout_ : Nat
  deriving DecidableEq

/-- The default constructor `HttpsClient()` with the in-class initialisers. -/
def HttpsClient.new : HttpsClient :=
  { get_flag_ := false, pcurl_ := none, header_ := [], on_data_ := none, progress_ := none,
    host_ := "", client_cert_path_ := "", client_key_path_ := "",
    recv_data_timeout_ := kHttpsRecvTimeoutSec, connect_timeout_ := kHttpsConnectTimeoutSec }

/-- The constructor `HttpsClient(host, client_cert_path, client_key_path)`. -/
def HttpsClient.newWith (host client_cert_path client_key_path : String) : HttpsClient :=
  { HttpsClient.new with
    host_ := host, client_cert_path_ := client_cert_path, client_key_path_ := client_key_path }

/-- Mirror of `HttpsClient::SetTimeout` (arguments are `uint32_t`). -/
def HttpsClient.SetTimeout (self : HttpsClient) (connect_timeout recv_data_timeout : Nat) :
    HttpsClient :=
  let self1 := if connect_timeout > 0 then { self with connect_timeout_ := connect_timeout } else self
  if recv_data_timeout > 0 then { self1 with recv_data_timeout_ := recv_data_timeout } else self1

/-- The two write callbacks the source registers as `CURLOPT_WRITEFUNCTION`. -/
inductive WriteFn where
  | OnCurlString
  | OnCurlData
  deriving DecidableEq

/-- The user pointers the source passes as `CURLOPT_WRITEDATA`: `&res->body` and
`&on_data_`. -/
inductive WritePtr where
  | res_body
  | on_data_
  deriving DecidableEq

/-- The options `DoReq` sets, each with the value the source passes.
`PROGRESSFUNCTION` is always `OnCurlProgress` and `PROGRESSDATA` always
`&progress_`. -/
inductive CurlOption where
  | HTTPHEADER (list : List String)
  | URL (path : String)
  | PROGRESSFUNCTION
  | PROGRESSDATA
  | NOPROGRESS (v : Nat)
  | WRITEFUNCTION (f : WriteFn)
  | WRITEDATA (p : WritePtr)
  | SSL_VERIFYPEER (v : Nat)
  | SSL_VERIFYHOST (v : Nat)
  | POSTFIELDS (body : String)
  | CUSTOMREQUEST (req_type : String)
  | CONNECTTIMEOUT (sec : Nat)
  | TIMEOUT (sec : Nat)
  deriving DecidableEq

/-- One observable call: the six engine entry points the source uses, and the
two user callbacks.  `curl_slist_append list s ret` records the list it was
given (`[]` is null), the string to append and the list returned (`[]` is null:
the call failed). -/
inductive Event where
  | curl_easy_init (ret : Option CURL)
  | curl_slist_append (list : List String) (s : String) (ret : List String)
  | curl_easy_setopt (h : CURL) (opt : CurlOption) (ret : CURLcode)
  | curl_easy_perform (h : CURL)
  | curl_easy_cleanup (h : CURL)
  | curl_slist_free_all (list : List String)
  | on_data (cb : Nat) (buffer : Bytes) (size : Nat)
  | progress (cb : Nat) (len total : Nat)
  deriving DecidableEq

/-- What the engine hands to the registered callbacks during one
`curl_easy_perform`: a received chunk for the write callback, or a progress
report. -/
inductive Delivery where
  | write (buffer : Bytes) (size nmemb : Nat)
  | progress (dltotal dlnow ultotal ulnow : Double)
  deriving DecidableEq

/-- The statements of `DoReq` that allocate and may therefore throw:
`std::make_shared<HttpsResult>()`, `progress_ = progress`, `on_data_ = on_data`. -/
inductive ThrowSite where
  | make_shared
  | assign_progress
  | assign_on_data
  deriving DecidableEq

/-- The exception `DoReqWithException` catches (`std::exception&`). -/
inductive StdException where
  | bad_alloc
  deriving DecidableEq, Inhabited

/-- The environment of one request attempt: every answer that comes from outside
the repository's code. -/
structure Env where
  /-- result of `curl_easy_init()`; `none` is a null handle -/
  easy_init : Option CURL
  /-- whether `curl_slist_append(list, s)` succeeds -/
  slist_append_ok : List String → String → Bool
  /-- code returned by `curl_easy_setopt` for an option -/
  setopt : CurlOption → CURLcode
  /-- what the engine delivers, in order, during `curl_easy_perform` -/
  deliveries : List Delivery
  /-- code `curl_easy_perform` returns when no callback aborts the transfer -/
  perform : CURLcode
  /-- the allocating statement that throws, if any -/
  throws : Option ThrowSite

/-- Value returned, instance afterwards, calls made. -/
structure Outcome (α : Type) where
  ret : α
  self : HttpsClient
  trace : List Event

/-! ## The static callbacks of `HttpsClient.cpp` -/

/-- Mirror of `OnCurlString`: the stream after the append, and the value returned. -/
def OnCurlString (buffer : Bytes) (size nmemb : Nat) (stream : Bytes) : Bytes × Nat :=
  let size_val := (size * nmemb) % SIZE_MOD
  (stream ++ buffer.take size_val, size_val)

/-- Mirror of `OnCurlData`: the user callback invocation, and the value returned.
`on_data_cb` is what `&on_data_` points to; `DoReq` registers this callback only
when that function object is non-empty. -/
def OnCurlData (buffer : Bytes) (size nmemb : Nat) (on_data_cb : HttpsOnData) : List Event × Nat :=
  let size_val := (size * nmemb) % SIZE_MOD
  match on_data_cb with
  | some cb => ([Event.on_data cb buffer size_val], size_val)
  | none => ([], size_val)

/-- Mirror of `OnCurlProgress`: the user callback invocation (if any), and the
value returned.  `progress_cb` is what `&progress_` points to. -/
def OnCurlProgress (progress_cb : HttpsProgress) (dltotal dlnow _ultotal _ulnow : Double) :
    List Event × Int :=
  if dltotal.gtZero && dlnow.gtZero then
    match progress_cb with
    | some cb => ([Event.progress cb dlnow.toUInt64 dltotal.toUInt64], 0)
    | none => ([], 0)
  else ([], 0)

/-! ## The engine's side of one handle (libcurl's documented contract) -/

/-- The callback registrations stored in an easy handle.  A fresh handle has no
write callback of the caller, no progress callback, and progress switched off. -/
structure Easy where
  progressfunction : Bool
  progressdata : Bool
  noprogress : Bool
  writefunction : Option WriteFn
  writedata : Option WritePtr
  deriving DecidableEq

def Easy.fresh : Easy :=
  { progressfunction := false, progressdata := false, noprogress := true,
    writefunction := none, writedata := none }

/-- Effect of `curl_easy_setopt` that returned `ret`: a rejected option stores
nothing; options other than the callback registrations do not influence which
callbacks run. -/
def Easy.setopt (e : Easy) (opt : CurlOption) (ret : CURLcode) : Easy :=
  if ret ≠ CURLE_OK then e
  else
    match opt with
    | .PROGRESSFUNCTION => { e with progressfunction := true }
    | .PROGRESSDATA => { e with progressdata := true }
    | .NOPROGRESS v => { e with noprogress := decide (v ≠ 0) }
    | .WRITEFUNCTION f => { e with writefunction := some f }
    | .WRITEDATA p => { e with writedata := some p }
    | _ => e

/-- State of a running transfer: `res->body`, the user callback invocations so
far, and the code with which a callback aborted the transfer. -/
structure Transfer where
  body : Bytes
  calls : List Event
  abort : Option CURLcode
  deriving DecidableEq

/-- The engine handles one delivery.  After an abort nothing more is delivered.
A chunk goes to the registered write callback, which must return `size * nmemb`
or the transfer ends with `CURLE_WRITE_ERROR`; a report goes to the progress
callback when progress is switched on, and a non-zero return ends the transfer
with `CURLE_ABORTED_BY_CALLBACK`.  With an incomplete registration the engine
writes to its default sink, which the model does not record. -/
def Transfer.step (easy : Easy) (self : HttpsClient) (t : Transfer) (d : Delivery) : Transfer :=
  match t.abort with
  | some _ => t
  | none =>
    match d with
    | .write buffer size nmemb =>
      match easy.writefunction, easy.writedata with
      | some .OnCurlString, some .res_body =>
        let r := OnCurlString buffer size nmemb t.body
        { t with body := r.1, abort := if r.2 = size * nmemb then none else some CURLE_WRITE_ERROR }
      | some .OnCurlData, some .on_data_ =>
        let r := OnCurlData buffer size nmemb self.on_data_
        { t with calls := t.calls ++ r.1,
                 abort := if r.2 = size * nmemb then none else some CURLE_WRITE_ERROR }
      | _, _ => t
    | .progress dltotal dlnow ultotal ulnow =>
      if easy.progressfunction && easy.progressdata && !easy.noprogress then
        let r := OnCurlProgress self.progress_ dltotal dlnow ultotal ulnow
        { t with calls := t.calls ++ r.1,
                 abort := if r.2 = 0 then none else some CURLE_ABORTED_BY_CALLBACK }
      else t

/-- The engine runs the transfer: all deliveries, in order. -/
def runTransfer (easy : Easy) (self : HttpsClient) (deliveries : List Delivery) (body : Bytes) :
    Transfer :=
  deliveries.foldl (Transfer.step easy self) { body := body, calls := [], abort := none }

/-- The code `curl_easy_perform` returns. -/
def Transfer.code (t : Transfer) (env : Env) : CURLcode :=
  match t.abort with
  | some c => c
  | none => env.perform

/-- The engine function `curl_slist_append`: on success the list with the string
added at the end (a null list becomes a one-element list); on failure null,
the list given staying allocated as it was. -/
def curl_slist_append (env : Env) (list : List String) (s : String) : List String :=
  if env.slist_append_ok list s then list ++ [s] else []

/-! ## The member functions of `HttpsClient.cpp` -/

/-- The loop `for (auto& it : headers) header_ = curl_slist_append(header_, it.c_str())`:
the list built and the calls made. -/
def appendHeaders (env : Env) (header_ : List String) (headers : List String) :
    List String × List Event :=
  headers.foldl
    (fun st it =>
      (curl_slist_append env st.1 (c_str it),
       st.2 ++ [Event.curl_slist_append st.1 (c_str it) (curl_slist_append env st.1 (c_str it))]))
    (header_, [])

/-- The `curl_easy_setopt` calls of lines 122-127, made when `progress_` is non-empty. -/
def progressOptions (progress : HttpsProgress) : List CurlOption :=
  if progress.isSome then [.PROGRESSFUNCTION, .PROGRESSDATA, .NOPROGRESS 0] else []

/-- The `curl_easy_setopt` calls of lines 130-151, in source order. -/
def transferOptions (self : HttpsClient) (req_type body : String) (on_data : HttpsOnData) :
    List CurlOption :=
  (if on_data.isSome then [.WRITEFUNCTION .OnCurlData, .WRITEDATA .on_data_]
   else [.WRITEFUNCTION .OnCurlString, .WRITEDATA .res_body])
  ++ [.SSL_VERIFYPEER 0, .SSL_VERIFYHOST 0]
  ++ (if body ≠ "" then [.POSTFIELDS (c_str body)] else [])
  ++ [.CUSTOMREQUEST (c_str req_type), .CONNECTTIMEOUT self.connect_timeout_,
      .TIMEOUT self.recv_data_timeout_]

/-- The calls `curl_easy_setopt(pcurl_, opt, ...)` for a list of options whose
result the source ignores. -/
def setoptCalls (env : Env) (pcurl : CURL) (opts : List CurlOption) : List Event :=
  opts.map (fun o => Event.curl_easy_setopt pcurl o (env.setopt o))

/-- The handle after those calls. -/
def configured (env : Env) (opts : List CurlOption) : Easy :=
  opts.foldl (fun e o => e.setopt o (env.setopt o)) Easy.fresh

/-- Mirror of `HttpsClient::DoReq`.  `Except.error` is a thrown exception. -/
def HttpsClient.DoReq (self : HttpsClient) (env : Env) (req_type path : String)
    (headers : List String) (body : String) (on_data : HttpsOnData) (progress : HttpsProgress) :
    Outcome (Except StdException (Option HttpsResult)) :=
  if self.get_flag_ then
    { ret := .ok none, self := self, trace := [] }
  else
    let self1 := { self with get_flag_ := true, pcurl_ := env.easy_init }
    let t1 := [Event.curl_easy_init env.easy_init]
    match env.easy_init with
    | none => { ret := .ok none, self := self1, trace := t1 }
    | some pcurl =>
      if env.throws = some .make_shared then
        { ret := .error .bad_alloc, self := self1, trace := t1 }
      else
        -- lines 99-112
        let ap :=
          if headers ≠ [] then appendHeaders env self1.header_ headers else (self1.header_, [])
        let self2 := { self1 with header_ := ap.1 }
        let hcode := env.setopt (.HTTPHEADER self2.header_)
        let t2 := if headers ≠ [] then
            t1 ++ ap.2 ++ [Event.curl_easy_setopt pcurl (.HTTPHEADER self2.header_) hcode]
          else t1
        if headers ≠ [] ∧ hcode ≠ CURLE_OK then
          { ret := .ok (some { code := hcode, body := [] }), self := self2, trace := t2 }
        else
          -- lines 114-119
          let ucode := env.setopt (.URL (c_str path))
          let t3 := t2 ++ [Event.curl_easy_setopt pcurl (.URL (c_str path)) ucode]
          if ucode ≠ CURLE_OK then
            { ret := .ok (some { code := ucode, body := [] }), self := self2, trace := t3 }
          else if env.throws = some .assign_progress then
            { ret := .error .bad_alloc, self := self2, trace := t3 }
          else
            -- lines 121-127
            let self3 := { self2 with progress_ := progress }
            let opts1 := progressOptions self3.progress_
            let t4 := t3 ++ setoptCalls env pcurl opts1
            if env.throws = some .assign_on_data then
              { ret := .error .bad_alloc, self := self3, trace := t4 }
            else
              -- lines 129-151
              let self4 := { self3 with on_data_ := on_data }
              let opts2 := transferOptions self4 req_type body self4.on_data_
              let t5 := t4 ++ setoptCalls env pcurl opts2
              -- line 152
              let tr := runTransfer (configured env (opts1 ++ opts2)) self4 env.deliveries []
              let code := tr.code env
              -- lines 154-160
              let t6 := t5 ++ [Event.curl_easy_perform pcurl] ++ tr.calls
                ++ [Event.curl_easy_cleanup pcurl]
                ++ (if self4.header_ ≠ [] then [Event.curl_slist_free_all self4.header_] else [])
              let self5 := { self4 with pcurl_ := none, header_ := [] }
              { ret := .ok (some { code := code, body := tr.body }), self := self5, trace := t6 }

/-- Mirror of `HttpsClient::DoReqWithException`: a caught exception becomes a
null result. -/
def HttpsClient.DoReqWithException (self : HttpsClient) (env : Env) (req_type path : String)
    (headers : List String) (body : String) (on_data : HttpsOnData) (progress : HttpsProgress) :
    Outcome (Option HttpsResult) :=
  let o := self.DoReq env req_type path headers body on_data progress
  { ret := match o.ret with
           | .ok res => res
           | .error _ => none,
    self := o.self, trace := o.trace }

/-- Mirror of the five-argument `HttpsClient::Get`. -/
def HttpsClient.Get5 (self : HttpsClient) (env : Env) (path : String) (headers : List String)
    (body : String) (on_data : HttpsOnData) (progress : HttpsProgress) :
    Outcome (Option HttpsResult) :=
  self.DoReqWithException env "GET" path headers body on_data progress

/-- Mirror of the three-argument `HttpsClient::Get`. -/
def HttpsClient.Get (self : HttpsClient) (env : Env) (path : String) (headers : List String)
    (body : String) : Outcome (Option HttpsResult) :=
  self.Get5 env path headers body none none

/-- Mirror of `HttpsClient::Post`. -/
def HttpsClient.Post (self : HttpsClient) (env : Env) (path : String) (headers : List String)
    (body : String) : Outcome (Option HttpsResult) :=
  self.DoReqWithException env "POST" path headers body none none

/-- Mirror of `HttpsClient::~HttpsClient`: the engine calls the destructor makes. -/
def HttpsClient.destructor (self : HttpsClient) : List Event :=
  (match self.pcurl_ with
   | some pcurl => [Event.curl_easy_cleanup pcurl]
   | none => [])
  ++ (if self.header_ ≠ [] then [Event.curl_slist_free_all self.header_] else [])

/-! ## Callers: one request, and a whole lifetime of an instance -/

/-- A call of one of the three public request functions, with its arguments. -/
inductive Request where
  | Get (path : String) (headers : List String) (body : String)
  | Get5 (path : String) (headers : List String) (body : String) (on_data : HttpsOnData)
      (progress : HttpsProgress)
  | Post (path : String) (headers : List String) (body : String)
  deriving DecidableEq

/-- The method string the request function passes down. -/
def Request.req_type : Request → String
  | .Get _ _ _ => "GET"
  | .Get5 _ _ _ _ _ => "GET"
  | .Post _ _ _ => "POST"

def Request.path : Request → String
  | .Get path _ _ => path
  | .Get5 path _ _ _ _ => path
  | .Post path _ _ => path

def Request.headers : Request → List String
  | .Get _ headers _ => headers
  | .Get5 _ headers _ _ _ => headers
  | .Post _ headers _ => headers

def Request.body : Request → String
  | .Get _ _ body => body
  | .Get5 _ _ body _ _ => body
  | .Post _ _ body => body

/-- The data callback that reaches `DoReq`: null for the three-argument forms. -/
def Request.on_data : Request → HttpsOnData
  | .Get5 _ _ _ on_data _ => on_data
  | _ => none

/-- The progress callback that reaches `DoReq`: null for the three-argument forms. -/
def Request.progress : Request → HttpsProgress
  | .Get5 _ _ _ _ progress => progress
  | _ => none

/-- Dispatch of a request to the member function it names. -/
def HttpsClient.request (self : HttpsClient) (env : Env) : Request → Outcome (Option HttpsResult)
  | .Get path headers body => self.Get env path headers body
  | .Get5 path headers body on_data progress => self.Get5 env path headers body on_data progress
  | .Post path headers body => self.Post env path headers body

/-- A call of a public member function; a request comes with the environment
it meets. -/
inductive Call where
  | SetTimeout (connect_timeout recv_data_timeout : Nat)
  | request (r : Request) (env : Env)

/-- The instance after one call, and the calls it made. -/
def HttpsClient.call (self : HttpsClient) : Call → HttpsClient × List Event
  | .SetTimeout connect_timeout recv_data_timeout =>
    (self.SetTimeout connect_timeout recv_data_timeout, [])
  | .request r env => ((self.request env r).self, (self.request env r).trace)

/-- The instance after a sequence of calls, and the whole trace. -/
def HttpsClient.run (self : HttpsClient) : List Call → HttpsClient × List Event
  | [] => (self, [])
  | c :: rest =>
    let one := self.call c
    let more := one.1.run rest
    (more.1, one.2 ++ more.2)

/-- The trace of a lifetime: the calls, then the destructor. -/
def lifetime (created : HttpsClient) (calls : List Call) : List Event :=
  (created.run calls).2 ++ (created.run calls).1.destructor

/-- An instance a program can hold: constructed, then used through the public
member functions. -/
inductive Reachable : HttpsClient → Prop where
  | new : Reachable HttpsClient.new
  | newWith (host client_cert_path client_key_path : String) :
      Reachable (HttpsClient.newWith host client_cert_path client_key_path)
  | call (self : HttpsClient) (c : Call) : Reachable self → Reachable (self.call c).1

/-! ## Names for the stages of `DoReq`, used to state its paths -/

/-- The instance once the guard is passed and the handle stored. -/
def HttpsClient.started (self : HttpsClient) (env : Env) : HttpsClient :=
  { self with get_flag_ := true, pcurl_ := env.easy_init }

/-- The list the loop of line 101 leaves in `header_`. -/
def headerList (env : Env) (header_ headers : List String) : List String :=
  (appendHeaders env header_ headers).1

/-- Every `curl_slist_append` of the loop of line 101 succeeds. -/
def appendsSucceed (env : Env) (header_ : List String) : List String → Bool
  | [] => true
  | it :: rest =>
    env.slist_append_ok header_ (c_str it) && appendsSucceed env (header_ ++ [c_str it]) rest

/-- Trace of the header stage (lines 99-112). -/
def headerTrace (self : HttpsClient) (env : Env) (pcurl : CURL) (headers : List String) :
    List Event :=
  if headers = [] then []
  else (appendHeaders env self.header_ headers).2
    ++ [Event.curl_easy_setopt pcurl (.HTTPHEADER (headerList env self.header_ headers))
          (env.setopt (.HTTPHEADER (headerList env self.header_ headers)))]

/-- The header stage did not return early. -/
def headerPassed (self : HttpsClient) (env : Env) (headers : List String) : Prop :=
  headers = [] ∨ env.setopt (.HTTPHEADER (headerList env self.header_ headers)) = CURLE_OK

/-- The instance after the header stage. -/
def HttpsClient.withHeaders (self : HttpsClient) (env : Env) (headers : List String) :
    HttpsClient :=
  { self.started env with header_ := headerList env self.header_ headers }

/-- Trace up to and including the `CURLOPT_URL` call. -/
def urlTrace (self : HttpsClient) (env : Env) (pcurl : CURL) (path : String)
    (headers : List String) : List Event :=
  Event.curl_easy_init (some pcurl) :: headerTrace self env pcurl headers
    ++ [Event.curl_easy_setopt pcurl (.URL (c_str path)) (env.setopt (.URL (c_str path)))]

/-- The instance while the transfer runs (after line 129). -/
def HttpsClient.armed (self : HttpsClient) (env : Env) (headers : List String)
    (on_data : HttpsOnData) (progress : HttpsProgress) : HttpsClient :=
  { self.withHeaders env headers with progress_ := progress, on_data_ := on_data }

/-- All options set without a check (lines 121-151). -/
def uncheckedOptions (self : HttpsClient) (req_type body : String) (on_data : HttpsOnData)
    (progress : HttpsProgress) : List CurlOption :=
  progressOptions progress ++ transferOptions self req_type body on_data

/-- The transfer `DoReq` runs at line 152. -/
def transferOf (self : HttpsClient) (env : Env) (req_type : String) (headers : List String)
    (body : String) (on_data : HttpsOnData) (progress : HttpsProgress) : Transfer :=
  runTransfer (configured env (uncheckedOptions self req_type body on_data progress))
    (self.armed env headers on_data progress) env.deliveries []

/-- The release calls of lines 154-160. -/
def releaseTrace (pcurl : CURL) (header_ : List String) : List Event :=
  Event.curl_easy_cleanup pcurl
    :: (if header_ = [] then [] else [Event.curl_slist_free_all header_])

/-! ## Vocabulary of the statements about a transfer -/

/-- The bytes of the delivered chunks, concatenated in delivery order. -/
def received : List Delivery → Bytes
  | [] => []
  | .write buffer _ _ :: rest => buffer ++ received rest
  | .progress _ _ _ _ :: rest => received rest

/-- The engine's contract for a delivery.  A chunk: `buffer` holds `size * nmemb`
bytes, a count that fits `size_t`.  A progress report: where `OnCurlProgress`
converts the values (both positive), they are convertible to `uint64_t`. -/
def Delivery.wellFormed : Delivery → Prop
  | .write buffer size nmemb => buffer.length = size * nmemb ∧ size * nmemb < SIZE_MOD
  | .progress dltotal dlnow _ _ =>
    dltotal.gtZero = true → dlnow.gtZero = true → dltotal.convertible ∧ dlnow.convertible

instance Delivery.decidableWellFormed : DecidablePred Delivery.wellFormed
  | .write buffer size nmemb =>
    inferInstanceAs (Decidable (buffer.length = size * nmemb ∧ size * nmemb < SIZE_MOD))
  | .progress dltotal dlnow _ _ =>
    inferInstanceAs (Decidable
      (dltotal.gtZero = true → dlnow.gtZero = true → dltotal.convertible ∧ dlnow.convertible))

/-- One invocation of the data callback `cb` per delivered chunk, in delivery
order, with the chunk and its byte count. -/
def dataCalls (cb : Nat) : List Delivery → List Event
  | [] => []
  | .write buffer size nmemb :: rest => Event.on_data cb buffer (size * nmemb) :: dataCalls cb rest
  | .progress _ _ _ _ :: rest => dataCalls cb rest

/-- One invocation of the progress callback `cb` per report with `dltotal > 0`
and `dlnow > 0`, with `(dlnow, dltotal)`. -/
def progressCalls (cb : Nat) : List Delivery → List Event
  | [] => []
  | .write _ _ _ :: rest => progressCalls cb rest
  | .progress dltotal dlnow _ _ :: rest =>
    if dltotal.gtZero = true ∧ dlnow.gtZero = true then
      Event.progress cb dlnow.toUInt64 dltotal.toUInt64 :: progressCalls cb rest
    else progressCalls cb rest

def Event.isOnData : Event → Bool
  | .on_data _ _ _ => true
  | _ => false

def Event.isProgress : Event → Bool
  | .progress _ _ _ => true
  | _ => false

/-- A call to the engine (anything but a user callback). -/
def Event.isEngineCall (e : Event) : Bool :=
  !(e.isOnData || e.isProgress)

/-- The total of the byte counts `size * nmemb` of the delivered chunks. -/
def receivedCount : List Delivery → Nat
  | [] => 0
  | .write _ size nmemb :: rest => size * nmemb + receivedCount rest
  | .progress _ _ _ _ :: rest => receivedCount rest

/-- The bytes the data callback was told to read (`size` bytes at `buffer`),
over all its invocations in a trace, in order. -/
def forwarded : List Event → Bytes
  | [] => []
  | .on_data _ buffer size :: rest => buffer.take size ++ forwarded rest
  | _ :: rest => forwarded rest

/-- The header list passed, when the call is `curl_easy_setopt(_, CURLOPT_HTTPHEADER, list)`. -/
def Event.attached : Event → Option (List String)
  | .curl_easy_setopt _ (.HTTPHEADER list) _ => some list
  | _ => none

/-- The header lists passed as `CURLOPT_HTTPHEADER`, in call order. -/
def attachedHeaders (trace : List Event) : List (List String) :=
  trace.filterMap Event.attached

/-- The string passed, when the call is `curl_slist_append(_, s)`. -/
def Event.appended : Event → Option String
  | .curl_slist_append _ s _ => some s
  | _ => none

/-- The strings passed to `curl_slist_append`, in call order. -/
def appendedStrings (trace : List Event) : List String :=
  trace.filterMap Event.appended

/-- A call that releases: `curl_easy_cleanup`, `curl_slist_free_all`. -/
def Event.isRelease : Event → Bool
  | .curl_easy_cleanup _ => true
  | .curl_slist_free_all _ => true
  | _ => false

def Event.isPerform : Event → Bool
  | .curl_easy_perform _ => true
  | _ => false

/-! ## A ledger of the engine resources -/

/-- The engine resources alive at a point of a trace: the handles returned by
`curl_easy_init` and not yet cleaned up, the header lists built by
`curl_slist_append` and not yet freed, and how many of each were ever acquired. -/
structure Ledger where
  handles : List CURL
  lists : List (List String)
  acquired_handles : Nat
  acquired_lists : Nat
  deriving DecidableEq

def Ledger.empty : Ledger :=
  { handles := [], lists := [], acquired_handles := 0, acquired_lists := 0 }

/-- The ledger after one call, or `none` when the call misuses a resource:
a release of something not alive (a double release), or a use of a handle or a
list that is not alive.  A successful append to the null list creates a list, a
successful append to a live list extends it, and a failed append (null
returned) leaves the list it was given alive. -/
def Ledger.step (l : Ledger) : Event → Option Ledger
  | .curl_easy_init (some h) =>
    some { l with handles := h :: l.handles, acquired_handles := l.acquired_handles + 1 }
  | .curl_easy_init none => some l
  | .curl_slist_append list _ ret =>
    if list ≠ [] ∧ list ∉ l.lists then none
    else if ret = [] then some l
    else if list = [] then
      some { l with lists := ret :: l.lists, acquired_lists := l.acquired_lists + 1 }
    else some { l with lists := ret :: l.lists.erase list }
  | .curl_easy_setopt h _ _ => if h ∈ l.handles then some l else none
  | .curl_easy_perform h => if h ∈ l.handles then some l else none
  | .curl_easy_cleanup h =>
    if h ∈ l.handles then some { l with handles := l.handles.erase h } else none
  | .curl_slist_free_all list =>
    if list ∈ l.lists then some { l with lists := l.lists.erase list } else none
  | .on_data _ _ _ => some l
  | .progress _ _ _ => some l

/-- The ledger after a trace. -/
def Ledger.run (l : Ledger) : List Event → Option Ledger
  | [] => some l
  | e :: rest => (l.step e).bind (fun l1 => l1.run rest)

/-- In a request every `curl_slist_append` of the header loop succeeds. -/
def Call.appendsOk : Call → Prop
  | .SetTimeout _ _ => True
  | .request r env => appendsSucceed env [] r.headers = true

/-- The ledger once the handle is acquired and the header stage is over. -/
def Ledger.afterHeaders (pcurl : CURL) (headers : List String) : Ledger :=
  { handles := [pcurl], lists := if headers = [] then [] else [headers],
    acquired_handles := 1, acquired_lists := if headers = [] then 0 else 1 }

/-- The ledger once everything acquired for the request is released. -/
def Ledger.afterRelease (headers : List String) : Ledger :=
  { handles := [], lists := [], acquired_handles := 1,
    acquired_lists := if headers = [] then 0 else 1 }

/-- The ledger agrees with the fields of the instance. -/
def Ledger.agrees (l : Ledger) (self : HttpsClient) : Prop :=
  l.handles = self.pcurl_.toList ∧
  l.lists = (if self.header_ = [] then [] else [self.header_]) ∧
  l.acquired_handles ≤ 1 ∧ l.acquired_lists ≤ 1 ∧
  (self.get_flag_ = false → l = Ledger.empty)

/-! ## Sample environments and requests -/

/-- A server answering `"hello"` in two chunks, with one progress report after
each; every engine call succeeds. -/
def helloEnv : Env :=
  { easy_init := some 1
    slist_append_ok := (fun _ _ => true)
    setopt := (fun _ => CURLE_OK)
    deliveries :=
      [Delivery.write [104, 101, 108] 1 3,
       Delivery.progress (Double.fin 5) (Double.fin 3) (Double.fin 0) (Double.fin 0),
       Delivery.write [108, 111] 1 2,
       Delivery.progress (Double.fin 5) (Double.fin 5) (Double.fin 0) (Double.fin 0)]
    perform := CURLE_OK
    throws := none }

/-- As `helloEnv`, but `std::make_shared<HttpsResult>()` throws `std::bad_alloc`. -/
def badAllocEnv : Env :=
  { helloEnv with throws := some ThrowSite.make_shared }

/-- As `helloEnv`, but the engine rejects `CURLOPT_CUSTOMREQUEST` with
`CURLE_OUT_OF_MEMORY` (27), and then transfers with its default method. -/
def methodRejectedEnv : Env :=
  { helloEnv with
    setopt := (fun o => if o = CurlOption.CUSTOMREQUEST "GET" then 27 else CURLE_OK) }

/-- As `helloEnv`, but the engine rejects the URL with `CURLE_URL_MALFORMAT` (3). -/
def urlRejectedEnv : Env :=
  { helloEnv with setopt := (fun o => if o = CurlOption.URL "nowhere" then 3 else CURLE_OK) }

/-- As `helloEnv`, but `curl_slist_append` succeeds only on the null list: the
second append of a request returns null. -/
def appendFailsEnv : Env :=
  { helloEnv with slist_append_ok := (fun list _ => decide (list = [])) }

/-- A request with two headers. -/
def twoHeaderRequest : Request :=
  Request.Post "https://example.test/ok" ["A: 1", "B: 2"] "x"

/-- A request whose only header has a NUL inside. -/
def nulHeaderRequest : Request :=
  Request.Post "https://example.test/ok" [String.mk [Char.ofNat 65, Char.ofNat 0, Char.ofNat 66]] "x"

/-- The scenario request of the specification. -/
def okRequest : Request :=
  Request.Get "https://example.test/ok" [] ""

/-! ## The paths through `DoReq` -/

theorem request_eq (self : HttpsClient) (env : Env) (r : Request) :
    self.request env r
      = self.DoReqWithException env r.req_type r.path r.headers r.body r.on_data r.progress := by
  cases r <;> rfl

theorem DoReq_used (self : HttpsClient) (env : Env) (req_type path : String)
    (headers : List String) (body : String) (on_data : HttpsOnData) (progress : HttpsProgress)
    (h : self.get_flag_ = true) :
    self.DoReq env req_type path headers body on_data progress
      = { ret := .ok none, self := self, trace := [] } := by
  simp [HttpsClient.DoReq, h]

theorem appendHeaders_aux (env : Env) (hs : List String) (cur : List String)
    (acc : List Event) :
    hs.foldl
      (fun st it =>
        (curl_slist_append env st.1 (c_str it),
         st.2 ++ [Event.curl_slist_append st.1 (c_str it)
                    (curl_slist_append env st.1 (c_str it))]))
      (cur, acc)
    = ((appendHeaders env cur hs).1, acc ++ (appendHeaders env cur hs).2) := by
  induction hs generalizing cur acc with
  | nil => simp [appendHeaders]
  | cons x xs ih =>
    simp only [List.foldl_cons, appendHeaders]
    rw [ih, ih (curl_slist_append env cur (c_str x))
      ([] ++ [Event.curl_slist_append cur (c_str x) (curl_slist_append env cur (c_str x))])]
    simp [appendHeaders]

theorem appendHeaders_nil (env : Env) (cur : List String) :
    (appendHeaders env cur []).2 = [] := rfl

theorem appendHeaders_cons (env : Env) (cur : List String) (x : String) (xs : List String) :
    (appendHeaders env cur (x :: xs)).2
      = Event.curl_slist_append cur (c_str x) (curl_slist_append env cur (c_str x))
        :: (appendHeaders env (curl_slist_append env cur (c_str x)) xs).2 := by
  conv_lhs => unfold appendHeaders
  simp only [List.foldl_cons]
  rw [appendHeaders_aux]
  simp

theorem headerList_nil (env : Env) (cur : List String) : headerList env cur [] = cur := rfl

theorem headerList_cons (env : Env) (cur : List String) (x : String) (xs : List String) :
    headerList env cur (x :: xs) = headerList env (curl_slist_append env cur (c_str x)) xs := by
  unfold headerList
  conv_lhs => unfold appendHeaders
  simp only [List.foldl_cons]
  rw [appendHeaders_aux]

/-- When every append succeeds, the loop builds the C strings of the headers
after what `header_` held. -/
theorem headerList_of_succeed (env : Env) (cur hs : List String)
    (h : appendsSucceed env cur hs = true) : headerList env cur hs = cur ++ hs.map c_str := by
  induction hs generalizing cur with
  | nil => simp [headerList_nil]
  | cons x xs ih =>
    simp only [appendsSucceed, Bool.and_eq_true] at h
    rw [headerList_cons]
    simp only [curl_slist_append, h.1, if_true]
    rw [ih _ h.2]
    simp

theorem DoReq_init_fails (self : HttpsClient) (env : Env) (req_type path : String)
    (headers : List String) (body : String) (on_data : HttpsOnData) (progress : HttpsProgress)
    (hu : self.get_flag_ = false) (hi : env.easy_init = none) :
    self.DoReq env req_type path headers body on_data progress
      = { ret := .ok none, self := self.started env, trace := [Event.curl_easy_init none] } := by
  simp [HttpsClient.DoReq, hu, hi, HttpsClient.started]

theorem DoReq_make_shared_throws (self : HttpsClient) (env : Env) (req_type path : String)
    (headers : List String) (body : String) (on_data : HttpsOnData) (progress : HttpsProgress)
    (pcurl : CURL) (hu : self.get_flag_ = false) (hi : env.easy_init = some pcurl)
    (ht : env.throws = some .make_shared) :
    self.DoReq env req_type path headers body on_data progress
      = { ret := .error .bad_alloc, self := self.started env,
          trace := [Event.curl_easy_init (some pcurl)] } := by
  simp [HttpsClient.DoReq, hu, hi, ht, HttpsClient.started]

theorem DoReq_header_fails (self : HttpsClient) (env : Env) (req_type path : String)
    (headers : List String) (body : String) (on_data : HttpsOnData) (progress : HttpsProgress)
    (pcurl : CURL) (hu : self.get_flag_ = false) (hi : env.easy_init = some pcurl)
    (ht : env.throws ≠ some .make_shared) (hh : headers ≠ [])
    (hc : env.setopt (.HTTPHEADER (headerList env self.header_ headers)) ≠ CURLE_OK) :
    self.DoReq env req_type path headers body on_data progress
      = { ret := .ok (some { code := env.setopt (.HTTPHEADER (headerList env self.header_ headers)),
                             body := [] }),
          self := { self.started env with header_ := headerList env self.header_ headers },
          trace := Event.curl_easy_init (some pcurl) :: headerTrace self env pcurl headers } := by
  simp only [headerList] at hc
  simp [HttpsClient.DoReq, hu, hi, ht, hh, hc, HttpsClient.started, headerTrace,
    headerList]

theorem DoReq_url_fails (self : HttpsClient) (env : Env) (req_type path : String)
    (headers : List String) (body : String) (on_data : HttpsOnData) (progress : HttpsProgress)
    (pcurl : CURL) (hu : self.get_flag_ = false) (hi : env.easy_init = some pcurl)
    (ht : env.throws ≠ some .make_shared) (hp : headerPassed self env headers)
    (hc : env.setopt (.URL (c_str path)) ≠ CURLE_OK) :
    self.DoReq env req_type path headers body on_data progress
      = { ret := .ok (some { code := env.setopt (.URL (c_str path)), body := [] }),
          self := self.withHeaders env headers,
          trace := urlTrace self env pcurl path headers } := by
  simp only [headerPassed, headerList] at hp
  rcases hp with hp | hp
  · subst hp
    simp [HttpsClient.DoReq, hu, hi, ht, hc, HttpsClient.started, headerTrace, urlTrace,
      HttpsClient.withHeaders, headerList_nil]
  · by_cases hh : headers = []
    · subst hh
      simp [HttpsClient.DoReq, hu, hi, ht, hc, HttpsClient.started, headerTrace, urlTrace,
        HttpsClient.withHeaders, headerList_nil]
    · simp [HttpsClient.DoReq, hu, hi, ht, hc, hh, hp, HttpsClient.started, headerTrace,
        urlTrace, HttpsClient.withHeaders, headerList_nil, headerList]

theorem DoReq_assign_progress_throws (self : HttpsClient) (env : Env) (req_type path : String)
    (headers : List String) (body : String) (on_data : HttpsOnData) (progress : HttpsProgress)
    (pcurl : CURL) (hu : self.get_flag_ = false) (hi : env.easy_init = some pcurl)
    (ht : env.throws = some .assign_progress) (hp : headerPassed self env headers)
    (hc : env.setopt (.URL (c_str path)) = CURLE_OK) :
    self.DoReq env req_type path headers body on_data progress
      = { ret := .error .bad_alloc,
          self := self.withHeaders env headers,
          trace := urlTrace self env pcurl path headers } := by
  simp only [headerPassed, headerList] at hp
  rcases hp with hp | hp
  · subst hp
    simp [HttpsClient.DoReq, hu, hi, ht, hc, HttpsClient.started, headerTrace, urlTrace,
      HttpsClient.withHeaders, headerList_nil]
  · by_cases hh : headers = []
    · subst hh
      simp [HttpsClient.DoReq, hu, hi, ht, hc, HttpsClient.started, headerTrace, urlTrace,
        HttpsClient.withHeaders, headerList_nil]
    · simp [HttpsClient.DoReq, hu, hi, ht, hc, hh, hp, HttpsClient.started, headerTrace,
        urlTrace, HttpsClient.withHeaders, headerList_nil, headerList]

theorem DoReq_assign_on_data_throws (self : HttpsClient) (env : Env) (req_type path : String)
    (headers : List String) (body : String) (on_data : HttpsOnData) (progress : HttpsProgress)
    (pcurl : CURL) (hu : self.get_flag_ = false) (hi : env.easy_init = some pcurl)
    (ht : env.throws = some .assign_on_data) (hp : headerPassed self env headers)
    (hc : env.setopt (.URL (c_str path)) = CURLE_OK) :
    self.DoReq env req_type path headers body on_data progress
      = { ret := .error .bad_alloc,
          self := { self.withHeaders env headers with progress_ := progress },
          trace := urlTrace self env pcurl path headers
            ++ setoptCalls env pcurl (progressOptions progress) } := by
  simp only [headerPassed, headerList] at hp
  rcases hp with hp | hp
  · subst hp
    simp [HttpsClient.DoReq, hu, hi, ht, hc, HttpsClient.started, headerTrace, urlTrace,
      HttpsClient.withHeaders, headerList_nil]
  · by_cases hh : headers = []
    · subst hh
      simp [HttpsClient.DoReq, hu, hi, ht, hc, HttpsClient.started, headerTrace, urlTrace,
        HttpsClient.withHeaders, headerList_nil]
    · simp [HttpsClient.DoReq, hu, hi, ht, hc, hh, hp, HttpsClient.started, headerTrace,
        urlTrace, HttpsClient.withHeaders, headerList_nil, headerList]

theorem transferOptions_congr (s1 s2 : HttpsClient) (req_type body : String)
    (on_data : HttpsOnData) (h1 : s1.connect_timeout_ = s2.connect_timeout_)
    (h2 : s1.recv_data_timeout_ = s2.recv_data_timeout_) :
    transferOptions s1 req_type body on_data = transferOptions s2 req_type body on_data := by
  simp [transferOptions, h1, h2]

theorem DoReq_transfer (self : HttpsClient) (env : Env) (req_type path : String)
    (headers : List String) (body : String) (on_data : HttpsOnData) (progress : HttpsProgress)
    (pcurl : CURL) (hu : self.get_flag_ = false) (hi : env.easy_init = some pcurl)
    (ht : env.throws = none) (hp : headerPassed self env headers)
    (hc : env.setopt (.URL (c_str path)) = CURLE_OK) :
    self.DoReq env req_type path headers body on_data progress
      = { ret := .ok (some
            { code := (transferOf self env req_type headers body on_data progress).code env,
              body := (transferOf self env req_type headers body on_data progress).body }),
          self := { self.armed env headers on_data progress with pcurl_ := none, header_ := [] },
          trace := urlTrace self env pcurl path headers
            ++ setoptCalls env pcurl (uncheckedOptions self req_type body on_data progress)
            ++ [Event.curl_easy_perform pcurl]
            ++ (transferOf self env req_type headers body on_data progress).calls
            ++ releaseTrace pcurl (headerList env self.header_ headers) } := by
  have e1 : ∀ hd : List String, transferOptions
      { get_flag_ := true, pcurl_ := some pcurl, header_ := hd, on_data_ := on_data,
        progress_ := progress, host_ := self.host_, client_cert_path_ := self.client_cert_path_,
        client_key_path_ := self.client_key_path_, recv_data_timeout_ := self.recv_data_timeout_,
        connect_timeout_ := self.connect_timeout_ } req_type body on_data
      = transferOptions self req_type body on_data := fun hd =>
    transferOptions_congr _ _ _ _ _ rfl rfl
  simp only [headerPassed, headerList] at hp
  rcases hp with hp | hp
  · subst hp
    simp [HttpsClient.DoReq, hu, hi, ht, hc, HttpsClient.started, headerTrace, urlTrace,
      HttpsClient.withHeaders, headerList_nil, HttpsClient.armed, uncheckedOptions, transferOf, releaseTrace,
      setoptCalls, e1]
  · by_cases hh : headers = []
    · subst hh
      simp [HttpsClient.DoReq, hu, hi, ht, hc, HttpsClient.started, headerTrace, urlTrace,
        HttpsClient.withHeaders, headerList_nil, HttpsClient.armed, uncheckedOptions, transferOf, releaseTrace,
        setoptCalls, e1]
    · simp [HttpsClient.DoReq, hu, hi, ht, hc, hh, hp, HttpsClient.started, headerTrace,
        urlTrace, HttpsClient.withHeaders, headerList_nil, HttpsClient.armed, uncheckedOptions, transferOf,
        releaseTrace, setoptCalls, e1, headerList]

theorem DoReq_cases (self : HttpsClient) (env : Env) (req_type path : String)
    (headers : List String) (body : String) (on_data : HttpsOnData) (progress : HttpsProgress)
    (pcurl : CURL) (hu : self.get_flag_ = false) (hi : env.easy_init = some pcurl) :
    (env.throws = some .make_shared ∧
      self.DoReq env req_type path headers body on_data progress
        = { ret := .error .bad_alloc, self := self.started env,
            trace := [Event.curl_easy_init (some pcurl)] }) ∨
    (env.throws ≠ some .make_shared ∧ headers ≠ [] ∧
      env.setopt (.HTTPHEADER (headerList env self.header_ headers)) ≠ CURLE_OK ∧
      self.DoReq env req_type path headers body on_data progress
        = { ret := .ok (some { code := env.setopt (.HTTPHEADER (headerList env self.header_ headers)),
                               body := [] }),
            self := self.withHeaders env headers,
            trace := Event.curl_easy_init (some pcurl) :: headerTrace self env pcurl headers }) ∨
    (env.throws ≠ some .make_shared ∧ headerPassed self env headers ∧
      env.setopt (.URL (c_str path)) ≠ CURLE_OK ∧
      self.DoReq env req_type path headers body on_data progress
        = { ret := .ok (some { code := env.setopt (.URL (c_str path)), body := [] }),
            self := self.withHeaders env headers,
            trace := urlTrace self env pcurl path headers }) ∨
    (env.throws = some .assign_progress ∧ headerPassed self env headers ∧
      env.setopt (.URL (c_str path)) = CURLE_OK ∧
      self.DoReq env req_type path headers body on_data progress
        = { ret := .error .bad_alloc, self := self.withHeaders env headers,
            trace := urlTrace self env pcurl path headers }) ∨
    (env.throws = some .assign_on_data ∧ headerPassed self env headers ∧
      env.setopt (.URL (c_str path)) = CURLE_OK ∧
      self.DoReq env req_type path headers body on_data progress
        = { ret := .error .bad_alloc,
            self := { self.withHeaders env headers with progress_ := progress },
            trace := urlTrace self env pcurl path headers
              ++ setoptCalls env pcurl (progressOptions progress) }) ∨
    (env.throws = none ∧ headerPassed self env headers ∧
      env.setopt (.URL (c_str path)) = CURLE_OK ∧
      self.DoReq env req_type path headers body on_data progress
        = { ret := .ok (some
              { code := (transferOf self env req_type headers body on_data progress).code env,
                body := (transferOf self env req_type headers body on_data progress).body }),
            self := { self.armed env headers on_data progress with
                      pcurl_ := none, header_ := [] },
            trace := urlTrace self env pcurl path headers
              ++ setoptCalls env pcurl (uncheckedOptions self req_type body on_data progress)
              ++ [Event.curl_easy_perform pcurl]
              ++ (transferOf self env req_type headers body on_data progress).calls
              ++ releaseTrace pcurl (headerList env self.header_ headers) }) := by
  by_cases ht : env.throws = some .make_shared
  · exact Or.inl ⟨ht, DoReq_make_shared_throws _ _ _ _ _ _ _ _ _ hu hi ht⟩
  by_cases hp : headerPassed self env headers
  swap
  · have hh : headers ≠ [] := fun h => hp (Or.inl h)
    have hc : env.setopt (.HTTPHEADER (headerList env self.header_ headers)) ≠ CURLE_OK :=
      fun h => hp (Or.inr h)
    exact Or.inr (Or.inl ⟨ht, hh, hc, DoReq_header_fails _ _ _ _ _ _ _ _ _ hu hi ht hh hc⟩)
  by_cases hc : env.setopt (.URL (c_str path)) = CURLE_OK
  swap
  · exact Or.inr (Or.inr (Or.inl ⟨ht, hp, hc, DoReq_url_fails _ _ _ _ _ _ _ _ _ hu hi ht hp hc⟩))
  cases hth : env.throws with
  | none =>
    exact Or.inr (Or.inr (Or.inr (Or.inr (Or.inr
      ⟨rfl, hp, hc, DoReq_transfer _ _ _ _ _ _ _ _ _ hu hi hth hp hc⟩))))
  | some site =>
    cases site with
    | make_shared => exact absurd hth ht
    | assign_progress =>
      exact Or.inr (Or.inr (Or.inr (Or.inl
        ⟨rfl, hp, hc, DoReq_assign_progress_throws _ _ _ _ _ _ _ _ _ hu hi hth hp hc⟩)))
    | assign_on_data =>
      exact Or.inr (Or.inr (Or.inr (Or.inr (Or.inl
        ⟨rfl, hp, hc, DoReq_assign_on_data_throws _ _ _ _ _ _ _ _ _ hu hi hth hp hc⟩))))

theorem request_flag (self : HttpsClient) (env : Env) (r : Request) :
    (self.request env r).self.get_flag_ = true := by
  rw [request_eq]
  show (self.DoReq env r.req_type r.path r.headers r.body r.on_data r.progress).self.get_flag_ = true
  by_cases hu : self.get_flag_ = true
  · rw [DoReq_used _ _ _ _ _ _ _ _ hu]; exact hu
  · have hu : self.get_flag_ = false := by simpa using hu
    cases hi : env.easy_init with
    | none => rw [DoReq_init_fails _ _ _ _ _ _ _ _ hu hi]; rfl
    | some pcurl =>
      rcases DoReq_cases self env r.req_type r.path r.headers r.body r.on_data r.progress
        pcurl hu hi with ⟨_, h⟩ | ⟨_, _, _, h⟩ | ⟨_, _, _, h⟩ | ⟨_, _, _, h⟩ | ⟨_, _, _, h⟩
          | ⟨_, _, _, h⟩
      all_goals (rw [h]; rfl)

/-! ## Instances a program can hold -/

theorem SetTimeout_spec (self : HttpsClient) (c r : Nat) :
    self.SetTimeout c r
      = { self with
          connect_timeout_ := if c > 0 then c else self.connect_timeout_,
          recv_data_timeout_ := if r > 0 then r else self.recv_data_timeout_ } := by
  unfold HttpsClient.SetTimeout
  by_cases hc : c > 0 <;> by_cases hr : r > 0 <;> simp [hc, hr]

theorem request_used (self : HttpsClient) (env : Env) (r : Request) (h : self.get_flag_ = true) :
    self.request env r = { ret := none, self := self, trace := [] } := by
  rw [request_eq]
  simp [HttpsClient.DoReqWithException, DoReq_used _ _ _ _ _ _ _ _ h]

/-- An instance that has not yet served a request holds no handle and no
header list. -/
theorem Reachable.unused {self : HttpsClient} (h : Reachable self)
    (hu : self.get_flag_ = false) : self.pcurl_ = none ∧ self.header_ = [] := by
  induction h with
  | new => exact ⟨rfl, rfl⟩
  | newWith host cert key => exact ⟨rfl, rfl⟩
  | call s c _ ih =>
    cases c with
    | SetTimeout ct rt =>
      simp only [HttpsClient.call, SetTimeout_spec] at hu ⊢
      exact ih hu
    | request r env =>
      simp only [HttpsClient.call] at hu
      rw [request_flag] at hu
      exact absurd hu (by simp)

theorem request_ret (self : HttpsClient) (env : Env) (r : Request) :
    (self.request env r).ret
      = match (self.DoReq env r.req_type r.path r.headers r.body r.on_data r.progress).ret with
        | .ok res => res
        | .error _ => none := by
  rw [request_eq]; rfl

theorem request_self (self : HttpsClient) (env : Env) (r : Request) :
    (self.request env r).self
      = (self.DoReq env r.req_type r.path r.headers r.body r.on_data r.progress).self := by
  rw [request_eq]; rfl

theorem request_trace (self : HttpsClient) (env : Env) (r : Request) :
    (self.request env r).trace
      = (self.DoReq env r.req_type r.path r.headers r.body r.on_data r.progress).trace := by
  rw [request_eq]; rfl


/-! ## The engine's delivery loop -/

theorem Easy.setopt_writefunction (e : Easy) (o : CurlOption) (c : CURLcode) :
    (e.setopt o c).writefunction
      = match o with
        | .WRITEFUNCTION f => if c = CURLE_OK then some f else e.writefunction
        | _ => e.writefunction := by
  unfold Easy.setopt
  by_cases h : c = CURLE_OK <;> cases o <;> simp [h]

theorem Easy.setopt_writedata (e : Easy) (o : CurlOption) (c : CURLcode) :
    (e.setopt o c).writedata
      = match o with
        | .WRITEDATA p => if c = CURLE_OK then some p else e.writedata
        | _ => e.writedata := by
  unfold Easy.setopt
  by_cases h : c = CURLE_OK <;> cases o <;> simp [h]

theorem Easy.setopt_progressfunction (e : Easy) (o : CurlOption) (c : CURLcode) :
    (e.setopt o c).progressfunction
      = match o with
        | .PROGRESSFUNCTION => if c = CURLE_OK then true else e.progressfunction
        | _ => e.progressfunction := by
  unfold Easy.setopt
  by_cases h : c = CURLE_OK <;> cases o <;> simp [h]

theorem Easy.setopt_progressdata (e : Easy) (o : CurlOption) (c : CURLcode) :
    (e.setopt o c).progressdata
      = match o with
        | .PROGRESSDATA => if c = CURLE_OK then true else e.progressdata
        | _ => e.progressdata := by
  unfold Easy.setopt
  by_cases h : c = CURLE_OK <;> cases o <;> simp [h]

theorem Easy.setopt_noprogress (e : Easy) (o : CurlOption) (c : CURLcode) :
    (e.setopt o c).noprogress
      = match o with
        | .NOPROGRESS v => if c = CURLE_OK then decide (v ≠ 0) else e.noprogress
        | _ => e.noprogress := by
  unfold Easy.setopt
  by_cases h : c = CURLE_OK <;> cases o <;> simp [h]

theorem configured_string (self : HttpsClient) (env : Env) (req_type body : String)
    (progress : HttpsProgress)
    (hf : env.setopt (.WRITEFUNCTION .OnCurlString) = CURLE_OK)
    (hd : env.setopt (.WRITEDATA .res_body) = CURLE_OK) :
    (configured env (uncheckedOptions self req_type body none progress)).writefunction
        = some .OnCurlString ∧
    (configured env (uncheckedOptions self req_type body none progress)).writedata
        = some .res_body := by
  by_cases hb : body = "" <;>
    simp [configured, uncheckedOptions, transferOptions, List.foldl_append,
      Easy.setopt_writefunction, Easy.setopt_writedata, hf, hd, hb]

theorem configured_data (self : HttpsClient) (env : Env) (req_type body : String)
    (cb : Nat) (progress : HttpsProgress)
    (hf : env.setopt (.WRITEFUNCTION .OnCurlData) = CURLE_OK)
    (hd : env.setopt (.WRITEDATA .on_data_) = CURLE_OK) :
    (configured env (uncheckedOptions self req_type body (some cb) progress)).writefunction
        = some .OnCurlData ∧
    (configured env (uncheckedOptions self req_type body (some cb) progress)).writedata
        = some .on_data_ := by
  by_cases hb : body = "" <;>
    simp [configured, uncheckedOptions, transferOptions, List.foldl_append,
      Easy.setopt_writefunction, Easy.setopt_writedata, hf, hd, hb]

theorem configured_progress (self : HttpsClient) (env : Env) (req_type body : String)
    (on_data : HttpsOnData) (cb : Nat)
    (hf : env.setopt .PROGRESSFUNCTION = CURLE_OK)
    (hd : env.setopt .PROGRESSDATA = CURLE_OK)
    (hn : env.setopt (.NOPROGRESS 0) = CURLE_OK) :
    (configured env (uncheckedOptions self req_type body on_data (some cb))).progressfunction
        = true ∧
    (configured env (uncheckedOptions self req_type body on_data (some cb))).progressdata
        = true ∧
    (configured env (uncheckedOptions self req_type body on_data (some cb))).noprogress
        = false := by
  by_cases hb : body = "" <;> cases on_data <;>
    simp [configured, uncheckedOptions, transferOptions, progressOptions, List.foldl_append,
      Easy.setopt_progressfunction, Easy.setopt_progressdata, Easy.setopt_noprogress,
      hf, hd, hn, hb]

theorem wellFormed_tail {d : Delivery} {ds : List Delivery}
    (h : ∀ x ∈ d :: ds, x.wellFormed) : ∀ x ∈ ds, x.wellFormed :=
  fun x hx => h x (List.mem_cons_of_mem _ hx)

theorem step_aborted (easy : Easy) (self : HttpsClient) (t : Transfer) (d : Delivery)
    (c : CURLcode) (h : t.abort = some c) : Transfer.step easy self t d = t := by
  simp [Transfer.step, h]

theorem OnCurlString_ret (buffer : Bytes) (size nmemb : Nat) (stream : Bytes)
    (h : size * nmemb < SIZE_MOD) : (OnCurlString buffer size nmemb stream).2 = size * nmemb := by
  simp [OnCurlString, Nat.mod_eq_of_lt h]

theorem OnCurlString_stream (buffer : Bytes) (size nmemb : Nat) (stream : Bytes)
    (hl : buffer.length = size * nmemb) (h : size * nmemb < SIZE_MOD) :
    (OnCurlString buffer size nmemb stream).1 = stream ++ buffer := by
  rw [← hl] at h
  simp only [OnCurlString, ← hl, Nat.mod_eq_of_lt h, List.take_length]

theorem OnCurlData_ret (buffer : Bytes) (size nmemb : Nat) (cb : HttpsOnData)
    (h : size * nmemb < SIZE_MOD) : (OnCurlData buffer size nmemb cb).2 = size * nmemb := by
  cases cb <;> simp [OnCurlData, Nat.mod_eq_of_lt h]

theorem OnCurlData_calls (buffer : Bytes) (size nmemb : Nat) (cb : Nat)
    (h : size * nmemb < SIZE_MOD) :
    (OnCurlData buffer size nmemb (some cb)).1 = [Event.on_data cb buffer (size * nmemb)] := by
  simp [OnCurlData, Nat.mod_eq_of_lt h]

theorem OnCurlProgress_ret (cb : HttpsProgress) (dltotal dlnow ultotal ulnow : Double) :
    (OnCurlProgress cb dltotal dlnow ultotal ulnow).2 = 0 := by
  unfold OnCurlProgress
  split
  · cases cb <;> rfl
  · rfl

theorem OnCurlProgress_calls (cb : Nat) (dltotal dlnow ultotal ulnow : Double) :
    (OnCurlProgress (some cb) dltotal dlnow ultotal ulnow).1
      = if dltotal.gtZero = true ∧ dlnow.gtZero = true then
          [Event.progress cb dlnow.toUInt64 dltotal.toUInt64]
        else [] := by
  unfold OnCurlProgress
  by_cases h1 : dltotal.gtZero = true <;> by_cases h2 : dlnow.gtZero = true <;> simp [h1, h2]

theorem OnCurlData_user (buffer : Bytes) (size nmemb : Nat) (cb : HttpsOnData) :
    ∀ e ∈ (OnCurlData buffer size nmemb cb).1, e.isOnData = true := by
  cases cb <;> simp [OnCurlData, Event.isOnData]

theorem OnCurlProgress_user (cb : HttpsProgress) (dltotal dlnow ultotal ulnow : Double) :
    ∀ e ∈ (OnCurlProgress cb dltotal dlnow ultotal ulnow).1, e.isProgress = true := by
  unfold OnCurlProgress
  split
  · cases cb <;> simp [Event.isProgress]
  · simp

/-- No well-formed delivery makes a callback of the source abort the transfer. -/
theorem step_no_abort (easy : Easy) (self : HttpsClient) (t : Transfer) (d : Delivery)
    (hd : d.wellFormed) (ht : t.abort = none) : (Transfer.step easy self t d).abort = none := by
  cases d with
  | write buffer size nmemb =>
    have hs : size * nmemb < SIZE_MOD := hd.2
    unfold Transfer.step
    simp only [ht]
    split
    · simp [OnCurlString_ret _ _ _ _ hs]
    · simp [OnCurlData_ret _ _ _ _ hs]
    · exact ht
  | progress dltotal dlnow ultotal ulnow =>
    unfold Transfer.step
    simp only [ht]
    split
    · simp [OnCurlProgress_ret]
    · exact ht

theorem foldl_no_abort (easy : Easy) (self : HttpsClient) (ds : List Delivery) (t : Transfer)
    (hd : ∀ d ∈ ds, d.wellFormed) (ht : t.abort = none) :
    (ds.foldl (Transfer.step easy self) t).abort = none := by
  induction ds generalizing t with
  | nil => exact ht
  | cons d ds ih =>
    simp only [List.foldl_cons]
    exact ih _ (wellFormed_tail hd) (step_no_abort _ _ _ _ (hd d (List.mem_cons_self _ _)) ht)

/-- With `OnCurlString` registered on `&res->body`, the body grows by the chunks. -/
theorem foldl_body_string (easy : Easy) (self : HttpsClient) (ds : List Delivery) (t : Transfer)
    (hf : easy.writefunction = some .OnCurlString) (hw : easy.writedata = some .res_body)
    (hd : ∀ d ∈ ds, d.wellFormed) (ht : t.abort = none) :
    (ds.foldl (Transfer.step easy self) t).body = t.body ++ received ds := by
  induction ds generalizing t with
  | nil => simp [received]
  | cons d ds ih =>
    simp only [List.foldl_cons]
    have hwf := hd d (List.mem_cons_self _ _)
    rw [ih _ (wellFormed_tail hd) (step_no_abort _ _ _ _ hwf ht)]
    cases d with
    | write buffer size nmemb =>
      simp [Transfer.step, ht, hf, hw, received, OnCurlString_stream _ _ _ _ hwf.1 hwf.2]
    | progress dltotal dlnow ultotal ulnow =>
      simp only [Transfer.step, ht, received]
      split <;> rfl

/-- Unless `OnCurlString` is registered, nothing writes to the body. -/
theorem foldl_body_other (easy : Easy) (self : HttpsClient) (ds : List Delivery) (t : Transfer)
    (hf : easy.writefunction ≠ some .OnCurlString) :
    (ds.foldl (Transfer.step easy self) t).body = t.body := by
  induction ds generalizing t with
  | nil => rfl
  | cons d ds ih =>
    simp only [List.foldl_cons]
    rw [ih]
    cases hab : t.abort with
    | some c => rw [step_aborted _ _ _ _ _ hab]
    | none =>
      cases d with
      | write buffer size nmemb =>
        unfold Transfer.step
        simp only [hab]
        split
        · rename_i h _; exact absurd h hf
        · rfl
        · rfl
      | progress dltotal dlnow ultotal ulnow =>
        simp only [Transfer.step, hab]
        split <;> rfl

/-- Every recorded invocation is one of the two user callbacks. -/
theorem foldl_calls_user (easy : Easy) (self : HttpsClient) (ds : List Delivery) (t : Transfer)
    (h : ∀ e ∈ t.calls, e.isEngineCall = false) :
    ∀ e ∈ (ds.foldl (Transfer.step easy self) t).calls, e.isEngineCall = false := by
  induction ds generalizing t with
  | nil => exact h
  | cons d ds ih =>
    simp only [List.foldl_cons]
    apply ih
    cases hab : t.abort with
    | some c => rw [step_aborted _ _ _ _ _ hab]; exact h
    | none =>
      cases d with
      | write buffer size nmemb =>
        unfold Transfer.step
        simp only [hab]
        split
        · exact h
        · intro e he
          rcases List.mem_append.1 he with he | he
          · exact h e he
          · simp [Event.isEngineCall, OnCurlData_user _ _ _ _ e he]
        · exact h
      | progress dltotal dlnow ultotal ulnow =>
        simp only [Transfer.step, hab]
        split
        · intro e he
          rcases List.mem_append.1 he with he | he
          · exact h e he
          · simp [Event.isEngineCall, OnCurlProgress_user _ _ _ _ _ e he]
        · exact h

theorem filter_isOnData_progress (cb : HttpsProgress) (dltotal dlnow ultotal ulnow : Double) :
    (OnCurlProgress cb dltotal dlnow ultotal ulnow).1.filter Event.isOnData = [] := by
  unfold OnCurlProgress
  split
  · cases cb <;> simp [Event.isOnData]
  · simp

theorem filter_isProgress_data (buffer : Bytes) (size nmemb : Nat) (cb : HttpsOnData) :
    (OnCurlData buffer size nmemb cb).1.filter Event.isProgress = [] := by
  cases cb <;> simp [OnCurlData, Event.isProgress]

/-- With `OnCurlData` registered on `&on_data_`, every chunk is forwarded once. -/
theorem foldl_calls_data (easy : Easy) (self : HttpsClient) (cb : Nat) (ds : List Delivery)
    (t : Transfer) (hf : easy.writefunction = some .OnCurlData)
    (hw : easy.writedata = some .on_data_) (hcb : self.on_data_ = some cb)
    (hd : ∀ d ∈ ds, d.wellFormed) (ht : t.abort = none) :
    (ds.foldl (Transfer.step easy self) t).calls.filter Event.isOnData
      = t.calls.filter Event.isOnData ++ dataCalls cb ds := by
  induction ds generalizing t with
  | nil => simp [dataCalls]
  | cons d ds ih =>
    simp only [List.foldl_cons]
    have hwf := hd d (List.mem_cons_self _ _)
    rw [ih _ (wellFormed_tail hd) (step_no_abort _ _ _ _ hwf ht)]
    cases d with
    | write buffer size nmemb =>
      simp [Transfer.step, ht, hf, hw, hcb, dataCalls, OnCurlData_calls _ _ _ _ hwf.2,
        Event.isOnData]
    | progress dltotal dlnow ultotal ulnow =>
      simp only [Transfer.step, ht, dataCalls]
      split
      · simp [filter_isOnData_progress]
      · rfl

/-- With the progress callback registered, every report is passed to
`OnCurlProgress`. -/
theorem foldl_calls_progress (easy : Easy) (self : HttpsClient) (cb : Nat) (ds : List Delivery)
    (t : Transfer) (hf : easy.progressfunction = true) (hp : easy.progressdata = true)
    (hn : easy.noprogress = false) (hcb : self.progress_ = some cb)
    (hd : ∀ d ∈ ds, d.wellFormed) (ht : t.abort = none) :
    (ds.foldl (Transfer.step easy self) t).calls.filter Event.isProgress
      = t.calls.filter Event.isProgress ++ progressCalls cb ds := by
  induction ds generalizing t with
  | nil => simp [progressCalls]
  | cons d ds ih =>
    simp only [List.foldl_cons]
    have hwf := hd d (List.mem_cons_self _ _)
    rw [ih _ (wellFormed_tail hd) (step_no_abort _ _ _ _ hwf ht)]
    cases d with
    | write buffer size nmemb =>
      unfold Transfer.step
      simp only [ht, progressCalls]
      split
      · rfl
      · simp [filter_isProgress_data]
      · rfl
    | progress dltotal dlnow ultotal ulnow =>
      simp only [Transfer.step, ht, hf, hp, hn, hcb, progressCalls, OnCurlProgress_calls]
      by_cases h1 : dltotal.gtZero = true <;> by_cases h2 : dlnow.gtZero = true <;>
        simp [h1, h2, Event.isProgress]

/-- A transfer aborted by a callback never ends with the success code. -/
theorem foldl_abort_ne_ok (easy : Easy) (self : HttpsClient) (ds : List Delivery) (t : Transfer)
    (ht : t.abort ≠ some CURLE_OK) :
    (ds.foldl (Transfer.step easy self) t).abort ≠ some CURLE_OK := by
  induction ds generalizing t with
  | nil => exact ht
  | cons d ds ih =>
    simp only [List.foldl_cons]
    apply ih
    cases hab : t.abort with
    | some c => rw [step_aborted _ _ _ _ _ hab, hab]; rw [hab] at ht; exact ht
    | none =>
      cases d with
      | write buffer size nmemb =>
        unfold Transfer.step
        simp only [hab]
        split
        · simp only []; split <;> simp [CURLE_WRITE_ERROR, CURLE_OK]
        · simp only []; split <;> simp [CURLE_WRITE_ERROR, CURLE_OK]
        · rw [hab]; simp
      | progress dltotal dlnow ultotal ulnow =>
        simp only [Transfer.step, hab]
        split
        · simp only []; split <;> simp [CURLE_ABORTED_BY_CALLBACK, CURLE_OK]
        · rw [hab]; simp

theorem transfer_code_ne_ok (easy : Easy) (self : HttpsClient) (env : Env) (body : Bytes)
    (h : env.perform ≠ CURLE_OK) :
    (runTransfer easy self env.deliveries body).code env ≠ CURLE_OK := by
  have ha := foldl_abort_ne_ok easy self env.deliveries
    { body := body, calls := [], abort := none } (by simp)
  unfold Transfer.code runTransfer
  cases hab : (env.deliveries.foldl (Transfer.step easy self)
      { body := body, calls := [], abort := none }).abort with
  | none => exact h
  | some c =>
    intro hc
    apply ha
    rw [hab, ← hc]

theorem transfer_code_eq (easy : Easy) (self : HttpsClient) (env : Env) (body : Bytes)
    (hd : ∀ d ∈ env.deliveries, d.wellFormed) :
    (runTransfer easy self env.deliveries body).code env = env.perform := by
  unfold Transfer.code runTransfer
  rw [foldl_no_abort easy self env.deliveries _ hd rfl]

/-! ## What a trace contains -/

theorem appendHeaders_engine (env : Env) (hs cur : List String) :
    ∀ e ∈ (appendHeaders env cur hs).2, e.isEngineCall = true := by
  induction hs generalizing cur with
  | nil => simp [appendHeaders_nil]
  | cons x xs ih =>
    rw [appendHeaders_cons]
    intro e he
    rcases List.mem_cons.1 he with he | he
    · subst he; rfl
    · exact ih _ e he

theorem setoptCalls_engine (env : Env) (pcurl : CURL) (opts : List CurlOption) :
    ∀ e ∈ setoptCalls env pcurl opts, e.isEngineCall = true := by
  intro e he
  simp only [setoptCalls, List.mem_map] at he
  obtain ⟨o, _, rfl⟩ := he
  rfl

theorem headerTrace_engine (self : HttpsClient) (env : Env) (pcurl : CURL)
    (headers : List String) : ∀ e ∈ headerTrace self env pcurl headers, e.isEngineCall = true := by
  intro e he
  unfold headerTrace at he
  split at he
  · simp at he
  · rcases List.mem_append.1 he with he | he
    · exact appendHeaders_engine _ _ _ e he
    · simp only [List.mem_singleton] at he; subst he; rfl

theorem urlTrace_engine (self : HttpsClient) (env : Env) (pcurl : CURL) (path : String)
    (headers : List String) :
    ∀ e ∈ urlTrace self env pcurl path headers, e.isEngineCall = true := by
  intro e he
  unfold urlTrace at he
  rcases List.mem_append.1 he with he | he
  · rcases List.mem_cons.1 he with he | he
    · subst he; rfl
    · exact headerTrace_engine _ _ _ _ e he
  · simp only [List.mem_singleton] at he; subst he; rfl

theorem releaseTrace_engine (pcurl : CURL) (header_ : List String) :
    ∀ e ∈ releaseTrace pcurl header_, e.isEngineCall = true := by
  intro e he
  unfold releaseTrace at he
  rcases List.mem_cons.1 he with he | he
  · subst he; rfl
  · split at he
    · simp at he
    · simp only [List.mem_singleton] at he; subst he; rfl

theorem transferOf_calls_user (self : HttpsClient) (env : Env) (req_type : String)
    (headers : List String) (body : String) (on_data : HttpsOnData) (progress : HttpsProgress) :
    ∀ e ∈ (transferOf self env req_type headers body on_data progress).calls,
      e.isEngineCall = false :=
  foldl_calls_user _ _ _ _ (by simp)

/-- The user-callback invocations of a trace of the transfer path are those of
the transfer. -/
theorem transfer_trace_filter (p : Event → Bool) (hp : ∀ e, e.isEngineCall = true → p e = false)
    (self : HttpsClient) (env : Env) (pcurl : CURL) (path : String) (headers : List String)
    (opts : List CurlOption) (calls : List Event) :
    (urlTrace self env pcurl path headers ++ setoptCalls env pcurl opts
        ++ [Event.curl_easy_perform pcurl] ++ calls
        ++ releaseTrace pcurl (headerList env self.header_ headers)).filter p
      = calls.filter p := by
  have h1 : (urlTrace self env pcurl path headers).filter p = [] :=
    List.filter_eq_nil_iff.2 fun e he => by simp [hp e (urlTrace_engine _ _ _ _ _ e he)]
  have h2 : (setoptCalls env pcurl opts).filter p = [] :=
    List.filter_eq_nil_iff.2 fun e he => by simp [hp e (setoptCalls_engine _ _ _ e he)]
  have h3 : (releaseTrace pcurl (headerList env self.header_ headers)).filter p = [] :=
    List.filter_eq_nil_iff.2 fun e he => by simp [hp e (releaseTrace_engine _ _ e he)]
  have h4 : p (Event.curl_easy_perform pcurl) = false := hp _ rfl
  simp [List.filter_append, h1, h2, h3, List.filter_cons, h4]

theorem isOnData_of_engine (e : Event) (h : e.isEngineCall = true) : e.isOnData = false := by
  cases e <;> simp_all [Event.isEngineCall, Event.isOnData, Event.isProgress]

theorem isProgress_of_engine (e : Event) (h : e.isEngineCall = true) : e.isProgress = false := by
  cases e <;> simp_all [Event.isEngineCall, Event.isOnData, Event.isProgress]

theorem received_length (ds : List Delivery) (hd : ∀ d ∈ ds, d.wellFormed) :
    (received ds).length = receivedCount ds := by
  induction ds with
  | nil => rfl
  | cons d ds ih =>
    have hwf := hd d (List.mem_cons_self _ _)
    cases d with
    | write buffer size nmemb =>
      simp only [received, receivedCount, List.length_append, ih (wellFormed_tail hd)]
      rw [hwf.1]
    | progress dltotal dlnow ultotal ulnow =>
      simpa only [received, receivedCount] using ih (wellFormed_tail hd)

theorem forwarded_dataCalls (cb : Nat) (ds : List Delivery) (hd : ∀ d ∈ ds, d.wellFormed) :
    forwarded (dataCalls cb ds) = received ds := by
  induction ds with
  | nil => rfl
  | cons d ds ih =>
    have hwf := hd d (List.mem_cons_self _ _)
    cases d with
    | write buffer size nmemb =>
      simp only [dataCalls, forwarded, received, ih (wellFormed_tail hd)]
      rw [← hwf.1, List.take_length]
    | progress dltotal dlnow ultotal ulnow =>
      simpa only [dataCalls, received] using ih (wellFormed_tail hd)

/-! ## The transfer `DoReq` runs -/

theorem configured_not_string (self : HttpsClient) (env : Env) (req_type body : String)
    (cb : Nat) (progress : HttpsProgress) :
    (configured env (uncheckedOptions self req_type body (some cb) progress)).writefunction
      ≠ some .OnCurlString := by
  by_cases hb : body = "" <;> cases progress <;>
    by_cases hf : env.setopt (.WRITEFUNCTION .OnCurlData) = CURLE_OK <;>
    simp [configured, uncheckedOptions, transferOptions, progressOptions, List.foldl_append,
      Easy.setopt_writefunction, hf, hb, Easy.fresh]

theorem transferOf_code (self : HttpsClient) (env : Env) (req_type : String)
    (headers : List String) (body : String) (on_data : HttpsOnData) (progress : HttpsProgress)
    (hd : ∀ d ∈ env.deliveries, d.wellFormed) :
    (transferOf self env req_type headers body on_data progress).code env = env.perform :=
  transfer_code_eq _ _ _ _ hd

theorem transferOf_body_string (self : HttpsClient) (env : Env) (req_type : String)
    (headers : List String) (body : String) (progress : HttpsProgress)
    (hf : env.setopt (.WRITEFUNCTION .OnCurlString) = CURLE_OK)
    (hw : env.setopt (.WRITEDATA .res_body) = CURLE_OK)
    (hd : ∀ d ∈ env.deliveries, d.wellFormed) :
    (transferOf self env req_type headers body none progress).body = received env.deliveries := by
  have hc := configured_string self env req_type body progress hf hw
  unfold transferOf runTransfer
  rw [foldl_body_string _ _ _ _ hc.1 hc.2 hd rfl]
  rfl

theorem transferOf_body_data (self : HttpsClient) (env : Env) (req_type : String)
    (headers : List String) (body : String) (cb : Nat) (progress : HttpsProgress) :
    (transferOf self env req_type headers body (some cb) progress).body = [] := by
  unfold transferOf runTransfer
  rw [foldl_body_other _ _ _ _ (configured_not_string self env req_type body cb progress)]

theorem transferOf_calls_data (self : HttpsClient) (env : Env) (req_type : String)
    (headers : List String) (body : String) (cb : Nat) (progress : HttpsProgress)
    (hf : env.setopt (.WRITEFUNCTION .OnCurlData) = CURLE_OK)
    (hw : env.setopt (.WRITEDATA .on_data_) = CURLE_OK)
    (hd : ∀ d ∈ env.deliveries, d.wellFormed) :
    (transferOf self env req_type headers body (some cb) progress).calls.filter Event.isOnData
      = dataCalls cb env.deliveries := by
  have hc := configured_data self env req_type body cb progress hf hw
  unfold transferOf runTransfer
  rw [foldl_calls_data _ _ cb _ _ hc.1 hc.2 rfl hd rfl]
  rfl

theorem transferOf_calls_progress (self : HttpsClient) (env : Env) (req_type : String)
    (headers : List String) (body : String) (on_data : HttpsOnData) (cb : Nat)
    (hf : env.setopt .PROGRESSFUNCTION = CURLE_OK)
    (hp : env.setopt .PROGRESSDATA = CURLE_OK)
    (hn : env.setopt (.NOPROGRESS 0) = CURLE_OK)
    (hd : ∀ d ∈ env.deliveries, d.wellFormed) :
    (transferOf self env req_type headers body on_data (some cb)).calls.filter Event.isProgress
      = progressCalls cb env.deliveries := by
  have hc := configured_progress self env req_type body on_data cb hf hp hn
  unfold transferOf runTransfer
  rw [foldl_calls_progress _ _ cb _ _ hc.1 hc.2.1 hc.2.2 rfl hd rfl]
  rfl

/-- A request on an unused instance that reaches `curl_easy_perform`. -/
theorem request_transfer (self : HttpsClient) (env : Env) (r : Request) (pcurl : CURL)
    (hr : Reachable self) (hu : self.get_flag_ = false) (hi : env.easy_init = some pcurl)
    (ht : env.throws = none)
    (hh : r.headers = [] ∨ env.setopt (.HTTPHEADER (headerList env [] r.headers)) = CURLE_OK)
    (hurl : env.setopt (.URL (c_str r.path)) = CURLE_OK) :
    self.request env r
      = { ret := some
            { code := (transferOf self env r.req_type r.headers r.body r.on_data
                        r.progress).code env,
              body := (transferOf self env r.req_type r.headers r.body r.on_data
                        r.progress).body },
          self := { self.armed env r.headers r.on_data r.progress with
                    pcurl_ := none, header_ := [] },
          trace := urlTrace self env pcurl r.path r.headers
            ++ setoptCalls env pcurl
                (uncheckedOptions self r.req_type r.body r.on_data r.progress)
            ++ [Event.curl_easy_perform pcurl]
            ++ (transferOf self env r.req_type r.headers r.body r.on_data r.progress).calls
            ++ releaseTrace pcurl (headerList env self.header_ r.headers) } := by
  have h0 : self.header_ = [] := (hr.unused hu).2
  have hp : headerPassed self env r.headers := by
    unfold headerPassed
    rw [h0]
    exact hh
  rw [request_eq]
  unfold HttpsClient.DoReqWithException
  rw [DoReq_transfer self env r.req_type r.path r.headers r.body r.on_data r.progress pcurl hu hi
    ht hp hurl]

/-! ## Progress values -/

theorem Double.toUInt64_natCast (n : Nat) (h : n < 2 ^ 64) :
    (Double.fin (n : ℚ)).toUInt64 = n := by
  have hfl : Rat.floor (n : ℚ) = (n : ℤ) := by
    have : ⌊(n : ℚ)⌋ = (n : ℤ) := Int.floor_natCast n
    exact this
  have h0 : (0 : ℚ) ≤ (n : ℚ) := Nat.cast_nonneg n
  have h1 : (n : ℤ) < 2 ^ 64 := by exact_mod_cast h
  simp only [Double.toUInt64, hfl, h0, h1, and_self, if_true, Int.toNat_natCast]

theorem Double.gtZero_natCast (n : Nat) (h : 0 < n) : (Double.fin (n : ℚ)).gtZero = true := by
  simp [Double.gtZero, h]

theorem progressCalls_unknown_total (cb : Nat) (ds : List Delivery)
    (h : ∀ dltotal dlnow ultotal ulnow,
      Delivery.progress dltotal dlnow ultotal ulnow ∈ ds → dltotal.gtZero = false) :
    progressCalls cb ds = [] := by
  induction ds with
  | nil => rfl
  | cons d ds ih =>
    have ih1 := ih fun a b c e hm => h a b c e (List.mem_cons_of_mem _ hm)
    cases d with
    | write buffer size nmemb => simpa only [progressCalls] using ih1
    | progress dltotal dlnow ultotal ulnow =>
      have := h dltotal dlnow ultotal ulnow (List.mem_cons_self _ _)
      simp [progressCalls, this, ih1]

/-! ## Header calls in a trace -/

theorem appendHeaders_appended (env : Env) (hs cur : List String) :
    appendedStrings (appendHeaders env cur hs).2 = hs.map c_str := by
  induction hs generalizing cur with
  | nil => rfl
  | cons x xs ih =>
    rw [appendHeaders_cons]
    simp only [appendedStrings, List.filterMap_cons, Event.appended]
    exact congrArg _ (ih _)

theorem appendHeaders_attached (env : Env) (hs cur : List String) :
    attachedHeaders (appendHeaders env cur hs).2 = [] := by
  induction hs generalizing cur with
  | nil => rfl
  | cons x xs ih =>
    rw [appendHeaders_cons]
    simp only [attachedHeaders, List.filterMap_cons, Event.attached]
    exact ih _

theorem headerTrace_attached (self : HttpsClient) (env : Env) (pcurl : CURL)
    (headers : List String) :
    attachedHeaders (headerTrace self env pcurl headers)
      = if headers = [] then [] else [headerList env self.header_ headers] := by
  unfold headerTrace
  split
  · rfl
  · have := appendHeaders_attached env headers self.header_
    simp only [attachedHeaders] at this ⊢
    simp [List.filterMap_append, this, Event.attached]

theorem headerTrace_appended (self : HttpsClient) (env : Env) (pcurl : CURL)
    (headers : List String) :
    appendedStrings (headerTrace self env pcurl headers) = headers.map c_str := by
  unfold headerTrace
  split
  · rename_i h; rw [h]; rfl
  · have := appendHeaders_appended env headers self.header_
    simp only [appendedStrings] at this ⊢
    simp [List.filterMap_append, this, Event.appended]

theorem progressOptions_attached (env : Env) (pcurl : CURL) (progress : HttpsProgress) :
    attachedHeaders (setoptCalls env pcurl (progressOptions progress)) = [] := by
  cases progress <;> simp [setoptCalls, attachedHeaders, progressOptions, Event.attached]

theorem progressOptions_appended (env : Env) (pcurl : CURL) (progress : HttpsProgress) :
    appendedStrings (setoptCalls env pcurl (progressOptions progress)) = [] := by
  cases progress <;> simp [setoptCalls, appendedStrings, progressOptions, Event.appended]

theorem uncheckedOptions_attached (self : HttpsClient) (env : Env) (pcurl : CURL)
    (req_type body : String) (on_data : HttpsOnData) (progress : HttpsProgress) :
    attachedHeaders (setoptCalls env pcurl
      (uncheckedOptions self req_type body on_data progress)) = [] := by
  by_cases hb : body = "" <;> cases on_data <;> cases progress <;>
    simp [setoptCalls, attachedHeaders, uncheckedOptions, transferOptions, progressOptions, hb,
      Event.attached]

theorem uncheckedOptions_appended (self : HttpsClient) (env : Env) (pcurl : CURL)
    (req_type body : String) (on_data : HttpsOnData) (progress : HttpsProgress) :
    appendedStrings (setoptCalls env pcurl
      (uncheckedOptions self req_type body on_data progress)) = [] := by
  by_cases hb : body = "" <;> cases on_data <;> cases progress <;>
    simp [setoptCalls, appendedStrings, uncheckedOptions, transferOptions, progressOptions, hb,
      Event.appended]

theorem user_calls_attached (l : List Event) (h : ∀ e ∈ l, e.isEngineCall = false) :
    attachedHeaders l = [] := by
  unfold attachedHeaders
  rw [List.filterMap_eq_nil_iff]
  intro e he
  have := h e he
  cases e <;> simp_all [Event.isEngineCall, Event.isOnData, Event.isProgress, Event.attached]

theorem user_calls_appended (l : List Event) (h : ∀ e ∈ l, e.isEngineCall = false) :
    appendedStrings l = [] := by
  unfold appendedStrings
  rw [List.filterMap_eq_nil_iff]
  intro e he
  have := h e he
  cases e <;> simp_all [Event.isEngineCall, Event.isOnData, Event.isProgress, Event.appended]

theorem releaseTrace_attached (pcurl : CURL) (header_ : List String) :
    attachedHeaders (releaseTrace pcurl header_) = [] := by
  unfold releaseTrace attachedHeaders
  split <;> simp [Event.attached]

theorem releaseTrace_appended (pcurl : CURL) (header_ : List String) :
    appendedStrings (releaseTrace pcurl header_) = [] := by
  unfold releaseTrace appendedStrings
  split <;> simp [Event.appended]

theorem attachedHeaders_append (a b : List Event) :
    attachedHeaders (a ++ b) = attachedHeaders a ++ attachedHeaders b :=
  List.filterMap_append _ _ _

theorem appendedStrings_append (a b : List Event) :
    appendedStrings (a ++ b) = appendedStrings a ++ appendedStrings b :=
  List.filterMap_append _ _ _

theorem urlTrace_attached (self : HttpsClient) (env : Env) (pcurl : CURL) (path : String)
    (headers : List String) :
    attachedHeaders (urlTrace self env pcurl path headers)
      = if headers = [] then [] else [headerList env self.header_ headers] := by
  have h := headerTrace_attached self env pcurl headers
  unfold urlTrace
  rw [attachedHeaders_append]
  simp only [attachedHeaders, List.filterMap_cons, Event.attached, List.filterMap_nil,
    List.append_nil] at h ⊢
  exact h

theorem urlTrace_appended (self : HttpsClient) (env : Env) (pcurl : CURL) (path : String)
    (headers : List String) :
    appendedStrings (urlTrace self env pcurl path headers) = headers.map c_str := by
  have h := headerTrace_appended self env pcurl headers
  unfold urlTrace
  rw [appendedStrings_append]
  simp only [appendedStrings, List.filterMap_cons, Event.appended, List.filterMap_nil,
    List.append_nil] at h ⊢
  exact h

/-- Once the result object exists, `DoReq` passes exactly the supplied strings
to `curl_slist_append` and attaches the list built, if any, exactly once. -/
theorem DoReq_header_calls (self : HttpsClient) (env : Env) (req_type path : String)
    (headers : List String) (body : String) (on_data : HttpsOnData) (progress : HttpsProgress)
    (pcurl : CURL) (hu : self.get_flag_ = false) (hi : env.easy_init = some pcurl)
    (ht : env.throws ≠ some .make_shared) :
    attachedHeaders (self.DoReq env req_type path headers body on_data progress).trace
      = (if headers = [] then [] else [headerList env self.header_ headers]) ∧
    appendedStrings (self.DoReq env req_type path headers body on_data progress).trace
      = headers.map c_str := by
  rcases DoReq_cases self env req_type path headers body on_data progress pcurl hu hi with
    ⟨ht1, _⟩ | ⟨_, _, _, h⟩ | ⟨_, _, _, h⟩ | ⟨_, _, _, h⟩ | ⟨_, _, _, h⟩ | ⟨_, _, _, h⟩
  · exact absurd ht1 ht
  · rw [h]
    have h1 := headerTrace_attached self env pcurl headers
    have h2 := headerTrace_appended self env pcurl headers
    simp only [attachedHeaders, appendedStrings, List.filterMap_cons, Event.attached,
      Event.appended] at h1 h2 ⊢
    exact ⟨h1, h2⟩
  · rw [h]; exact ⟨urlTrace_attached _ _ _ _ _, urlTrace_appended _ _ _ _ _⟩
  · rw [h]; exact ⟨urlTrace_attached _ _ _ _ _, urlTrace_appended _ _ _ _ _⟩
  · rw [h]
    simp only [attachedHeaders_append, appendedStrings_append, urlTrace_attached,
      urlTrace_appended, progressOptions_attached, progressOptions_appended, List.append_nil,
      and_self]
  · rw [h]
    have hc := transferOf_calls_user self env req_type headers body on_data progress
    have e1 : attachedHeaders [Event.curl_easy_perform pcurl] = [] := rfl
    have e2 : appendedStrings [Event.curl_easy_perform pcurl] = [] := rfl
    simp only [attachedHeaders_append, appendedStrings_append, urlTrace_attached,
      urlTrace_appended, uncheckedOptions_attached, uncheckedOptions_appended,
      user_calls_attached _ hc, user_calls_appended _ hc, releaseTrace_attached,
      releaseTrace_appended, e1, e2, List.append_nil, and_self]

/-! ## Setup calls in a trace -/

/-- A string without NUL is its own C string. -/
theorem c_str_of_no_nul (s : String) (h : Char.ofNat 0 ∉ s.data) : c_str s = s := by
  have ht : s.data.takeWhile (fun c => decide (c ≠ Char.ofNat 0)) = s.data := by
    rw [List.takeWhile_eq_self_iff]
    intro c hc
    simp only [decide_eq_true_eq]
    intro hEq
    exact h (hEq ▸ hc)
  unfold c_str
  rw [ht]

theorem map_c_str_of_no_nul (l : List String) (h : ∀ s ∈ l, Char.ofNat 0 ∉ s.data) :
    l.map c_str = l := by
  induction l with
  | nil => rfl
  | cons x xs ih =>
    simp only [List.map_cons]
    rw [c_str_of_no_nul x (h x (List.mem_cons_self _ _)),
      ih fun s hs => h s (List.mem_cons_of_mem _ hs)]

/-! ## The ledger along the traces of `DoReq` -/

theorem Ledger.run_append (l : Ledger) (a b : List Event) :
    l.run (a ++ b) = (l.run a).bind (fun l1 => l1.run b) := by
  induction a generalizing l with
  | nil => rfl
  | cons e a ih =>
    simp only [List.cons_append, Ledger.run]
    cases l.step e with
    | none => rfl
    | some l1 => exact ih l1

theorem Ledger.step_user_call (l : Ledger) (e : Event) (he : e.isEngineCall = false) :
    l.step e = some l := by
  cases e with
  | on_data cb buffer size => rfl
  | progress cb len total => rfl
  | _ => simp [Event.isEngineCall, Event.isOnData, Event.isProgress] at he

theorem Ledger.run_cons (l : Ledger) (e : Event) (rest : List Event) :
    l.run (e :: rest) = (l.step e).bind (fun l1 => l1.run rest) := rfl

theorem Ledger.run_user_calls (l : Ledger) (calls : List Event)
    (h : ∀ e ∈ calls, e.isEngineCall = false) : l.run calls = some l := by
  induction calls with
  | nil => rfl
  | cons e rest ih =>
    rw [Ledger.run_cons, Ledger.step_user_call l e (h e (List.mem_cons_self _ _))]
    exact ih fun x hx => h x (List.mem_cons_of_mem _ hx)

theorem Ledger.run_setoptCalls (l : Ledger) (env : Env) (pcurl : CURL)
    (opts : List CurlOption) (h : pcurl ∈ l.handles) :
    l.run (setoptCalls env pcurl opts) = some l := by
  induction opts with
  | nil => rfl
  | cons o rest ih =>
    simp only [setoptCalls, List.map_cons, Ledger.run, Ledger.step, h, if_true,
      Option.some_bind] at ih ⊢
    exact ih

theorem Ledger.run_appendHeaders_live (env : Env) (l : Ledger) (cur hs : List String)
    (hc : cur ≠ []) (hl : l.lists = [cur]) (hok : appendsSucceed env cur hs = true) :
    l.run (appendHeaders env cur hs).2 = some { l with lists := [cur ++ hs.map c_str] } := by
  induction hs generalizing l cur with
  | nil =>
    simp only [appendHeaders_nil, Ledger.run, List.map_nil, List.append_nil, ← hl]
  | cons x xs ih =>
    simp only [appendsSucceed, Bool.and_eq_true] at hok
    have happ : curl_slist_append env cur (c_str x) = cur ++ [c_str x] := by
      simp [curl_slist_append, hok.1]
    rw [appendHeaders_cons, happ, Ledger.run_cons]
    have hstep : l.step (Event.curl_slist_append cur (c_str x) (cur ++ [c_str x]))
        = some { l with lists := [cur ++ [c_str x]] } := by
      simp [Ledger.step, hc, hl]
    rw [hstep, Option.some_bind, ih _ (cur ++ [c_str x]) (by simp) rfl hok.2]
    simp

theorem Ledger.run_appendHeaders_null (env : Env) (l : Ledger) (x : String) (xs : List String)
    (hl : l.lists = []) (hok : appendsSucceed env [] (x :: xs) = true) :
    l.run (appendHeaders env [] (x :: xs)).2
      = some { l with lists := [(x :: xs).map c_str],
                      acquired_lists := l.acquired_lists + 1 } := by
  simp only [appendsSucceed, Bool.and_eq_true, List.nil_append] at hok
  have happ : curl_slist_append env [] (c_str x) = [c_str x] := by
    simp [curl_slist_append, hok.1]
  rw [appendHeaders_cons, happ, Ledger.run_cons]
  have hstep : l.step (Event.curl_slist_append [] (c_str x) [c_str x])
      = some { l with lists := [[c_str x]], acquired_lists := l.acquired_lists + 1 } := by
    simp [Ledger.step, hl]
  rw [hstep, Option.some_bind,
    Ledger.run_appendHeaders_live env _ [c_str x] xs (by simp) rfl hok.2]
  simp

theorem Ledger.run_headerTrace (self : HttpsClient) (env : Env) (pcurl : CURL)
    (headers : List String) (h0 : self.header_ = [])
    (hok : appendsSucceed env [] headers = true) :
    Ledger.run
        { handles := [pcurl], lists := [], acquired_handles := 1, acquired_lists := 0 }
        (headerTrace self env pcurl headers)
      = some (Ledger.afterHeaders pcurl (headers.map c_str)) := by
  unfold headerTrace Ledger.afterHeaders
  cases headers with
  | nil => rfl
  | cons x xs =>
    rw [h0]
    simp only [reduceCtorEq, if_false]
    rw [Ledger.run_append, Ledger.run_appendHeaders_null env _ _ _ rfl hok]
    simp [Ledger.run, Ledger.step]

theorem Ledger.run_urlTrace (self : HttpsClient) (env : Env) (pcurl : CURL) (path : String)
    (headers : List String) (h0 : self.header_ = [])
    (hok : appendsSucceed env [] headers = true) :
    Ledger.empty.run (urlTrace self env pcurl path headers)
      = some (Ledger.afterHeaders pcurl (headers.map c_str)) := by
  unfold urlTrace
  rw [Ledger.run_append]
  simp only [Ledger.run, Ledger.step, Ledger.empty, Option.some_bind, Nat.zero_add]
  rw [Ledger.run_headerTrace self env pcurl headers h0 hok]
  simp [Ledger.afterHeaders]

theorem Ledger.run_releaseTrace (pcurl : CURL) (headers : List String) :
    (Ledger.afterHeaders pcurl headers).run (releaseTrace pcurl headers)
      = some (Ledger.afterRelease headers) := by
  unfold releaseTrace Ledger.afterHeaders Ledger.afterRelease
  by_cases h : headers = [] <;> simp [Ledger.run, Ledger.step, h]

theorem Ledger.agrees_afterHeaders (self : HttpsClient) (pcurl : CURL) (headers : List String)
    (hp : self.pcurl_ = some pcurl) (hh : self.header_ = headers)
    (hf : self.get_flag_ = true) : (Ledger.afterHeaders pcurl headers).agrees self := by
  unfold Ledger.agrees Ledger.afterHeaders
  rw [hp, hh, hf]
  refine ⟨rfl, rfl, le_refl _, ?_, ?_⟩
  · simp only []; split <;> simp
  · intro h; exact absurd h (by simp)

theorem Ledger.agrees_afterRelease (self : HttpsClient) (headers : List String)
    (hp : self.pcurl_ = none) (hh : self.header_ = [])
    (hf : self.get_flag_ = true) : (Ledger.afterRelease headers).agrees self := by
  unfold Ledger.agrees Ledger.afterRelease
  rw [hp, hh, hf]
  refine ⟨rfl, rfl, le_refl _, ?_, ?_⟩
  · simp only []; split <;> simp
  · intro h; exact absurd h (by simp)

theorem Ledger.agrees_unused (l : Ledger) (self : HttpsClient) (h : l.agrees self)
    (hu : self.get_flag_ = false) :
    l = Ledger.empty ∧ self.pcurl_ = none ∧ self.header_ = [] := by
  obtain ⟨h1, h2, _, _, h5⟩ := h
  have hl := h5 hu
  subst hl
  refine ⟨rfl, ?_, ?_⟩
  · cases hp : self.pcurl_ with
    | none => rfl
    | some p => rw [hp] at h1; simp [Ledger.empty] at h1
  · by_contra hne
    rw [if_neg hne] at h2
    simp [Ledger.empty] at h2

/-- One request whose appends succeed keeps the ledger in agreement with the
instance. -/
theorem Ledger.request_agrees (l : Ledger) (self : HttpsClient) (env : Env) (r : Request)
    (hag : l.agrees self) (hok : appendsSucceed env [] r.headers = true) :
    ∃ l1, l.run (self.request env r).trace = some l1 ∧ l1.agrees (self.request env r).self := by
  by_cases hu : self.get_flag_ = true
  · rw [request_used self env r hu]
    exact ⟨l, rfl, hag⟩
  have hu : self.get_flag_ = false := by simpa using hu
  obtain ⟨hl, _, h0⟩ := Ledger.agrees_unused l self hag hu
  subst hl
  rw [request_trace, request_self]
  cases hi : env.easy_init with
  | none =>
    rw [DoReq_init_fails _ _ _ _ _ _ _ _ hu hi]
    refine ⟨Ledger.empty, rfl, ?_⟩
    refine ⟨?_, ?_, ?_, ?_, ?_⟩
    · simp [HttpsClient.started, hi, Ledger.empty]
    · simp [HttpsClient.started, h0, Ledger.empty]
    · simp [Ledger.empty]
    · simp [Ledger.empty]
    · intro h; simp [HttpsClient.started] at h
  | some pcurl =>
    have hstart : (self.started env).pcurl_ = some pcurl := hi
    have hlist : headerList env self.header_ r.headers = r.headers.map c_str := by
      rw [h0, headerList_of_succeed env [] r.headers hok, List.nil_append]
    have hwith : (self.withHeaders env r.headers).header_ = r.headers.map c_str := hlist
    rcases DoReq_cases self env r.req_type r.path r.headers r.body r.on_data r.progress
      pcurl hu hi with ⟨_, h⟩ | ⟨_, _, _, h⟩ | ⟨_, _, _, h⟩ | ⟨_, _, _, h⟩ | ⟨_, _, _, h⟩
        | ⟨_, _, _, h⟩
    · rw [h]
      refine ⟨Ledger.afterHeaders pcurl [], rfl, ?_⟩
      exact Ledger.agrees_afterHeaders _ _ _ hstart h0 rfl
    · rw [h]
      refine ⟨Ledger.afterHeaders pcurl (r.headers.map c_str), ?_, ?_⟩
      · rw [Ledger.run_cons]
        simp only [Ledger.step, Ledger.empty, Option.some_bind, Nat.zero_add]
        exact Ledger.run_headerTrace self env pcurl r.headers h0 hok
      · exact Ledger.agrees_afterHeaders _ _ _ hstart hwith rfl
    · rw [h]
      exact ⟨_, Ledger.run_urlTrace self env pcurl r.path r.headers h0 hok,
        Ledger.agrees_afterHeaders _ _ _ hstart hwith rfl⟩
    · rw [h]
      exact ⟨_, Ledger.run_urlTrace self env pcurl r.path r.headers h0 hok,
        Ledger.agrees_afterHeaders _ _ _ hstart hwith rfl⟩
    · rw [h]
      refine ⟨Ledger.afterHeaders pcurl (r.headers.map c_str), ?_, ?_⟩
      · rw [Ledger.run_append, Ledger.run_urlTrace self env pcurl r.path r.headers h0 hok]
        exact Ledger.run_setoptCalls _ _ _ _ (by simp [Ledger.afterHeaders])
      · exact Ledger.agrees_afterHeaders _ _ _ hstart hwith rfl
    · rw [h]
      refine ⟨Ledger.afterRelease (r.headers.map c_str), ?_,
        Ledger.agrees_afterRelease _ _ rfl rfl rfl⟩
      have hlive : pcurl ∈ (Ledger.afterHeaders pcurl (r.headers.map c_str)).handles := by
        simp [Ledger.afterHeaders]
      rw [Ledger.run_append, Ledger.run_append, Ledger.run_append, Ledger.run_append,
        Ledger.run_urlTrace self env pcurl r.path r.headers h0 hok]
      have hperf : (Ledger.afterHeaders pcurl (r.headers.map c_str)).run
            [Event.curl_easy_perform pcurl]
          = some (Ledger.afterHeaders pcurl (r.headers.map c_str)) := by
        simp [Ledger.run, Ledger.step, Ledger.afterHeaders]
      simp only [Option.some_bind, Ledger.run_setoptCalls _ _ _ _ hlive, hperf,
        Ledger.run_user_calls _ _ (transferOf_calls_user _ _ _ _ _ _ _)]
      rw [hlist]
      exact Ledger.run_releaseTrace pcurl (r.headers.map c_str)

/-- Any public call whose appends succeed keeps the ledger in agreement with the
instance. -/
theorem Ledger.call_agrees (l : Ledger) (self : HttpsClient) (c : Call) (hag : l.agrees self)
    (hok : c.appendsOk) :
    ∃ l1, l.run (self.call c).2 = some l1 ∧ l1.agrees (self.call c).1 := by
  cases c with
  | SetTimeout ct rt =>
    refine ⟨l, rfl, ?_⟩
    simp only [HttpsClient.call, SetTimeout_spec]
    exact hag
  | request r env => exact Ledger.request_agrees l self env r hag hok

theorem Ledger.run_agrees (l : Ledger) (self : HttpsClient) (calls : List Call)
    (hag : l.agrees self) (hok : ∀ c ∈ calls, c.appendsOk) :
    ∃ l1, l.run (self.run calls).2 = some l1 ∧ l1.agrees (self.run calls).1 := by
  induction calls generalizing l self with
  | nil => exact ⟨l, rfl, hag⟩
  | cons c rest ih =>
    obtain ⟨l1, h1, hag1⟩ := Ledger.call_agrees l self c hag (hok c (List.mem_cons_self _ _))
    obtain ⟨l2, h2, hag2⟩ := ih l1 (self.call c).1 hag1
      (fun x hx => hok x (List.mem_cons_of_mem _ hx))
    refine ⟨l2, ?_, hag2⟩
    simp only [HttpsClient.run]
    rw [Ledger.run_append, h1]
    exact h2

/-- The destructor releases what the ledger holds, and nothing else. -/
theorem Ledger.destructor_releases (l : Ledger) (self : HttpsClient) (hag : l.agrees self) :
    ∃ l1, l.run self.destructor = some l1 ∧ l1.handles = [] ∧ l1.lists = [] ∧
      l1.acquired_handles ≤ 1 ∧ l1.acquired_lists ≤ 1 := by
  obtain ⟨h1, h2, h3, h4, _⟩ := hag
  unfold HttpsClient.destructor
  cases hp : self.pcurl_ with
  | none =>
    rw [hp] at h1
    by_cases hh : self.header_ = []
    · rw [if_pos hh] at h2
      exact ⟨l, by simp [hh, Ledger.run], h1, h2, h3, h4⟩
    · rw [if_neg hh] at h2
      exact ⟨{ l with lists := [] }, by simp [hh, Ledger.run, Ledger.step, h2], h1, rfl, h3, h4⟩
  | some pcurl =>
    rw [hp] at h1
    by_cases hh : self.header_ = []
    · rw [if_pos hh] at h2
      refine ⟨{ l with handles := [] }, ?_, rfl, h2, h3, h4⟩
      simp at h1
      simp [hh, Ledger.run, Ledger.step, h1]
    · rw [if_neg hh] at h2
      refine ⟨{ l with handles := [], lists := [] }, ?_, rfl, rfl, h3, h4⟩
      simp at h1
      simp [hh, Ledger.run, Ledger.step, h1, h2]

theorem Ledger.agrees_created (self : HttpsClient)
    (hp : self.pcurl_ = none) (hh : self.header_ = []) : Ledger.empty.agrees self := by
  unfold Ledger.agrees
  rw [hp, hh]
  exact ⟨rfl, rfl, Nat.zero_le _, Nat.zero_le _, fun _ => rfl⟩

/-- Over a lifetime in which every `curl_slist_append` succeeds, every handle and
every header list is released exactly once. -/
theorem Ledger.lifetime_balanced (created : HttpsClient) (calls : List Call)
    (hp : created.pcurl_ = none) (hh : created.header_ = [])
    (hok : ∀ c ∈ calls, c.appendsOk) :
    ∃ l1, Ledger.empty.run (lifetime created calls) = some l1 ∧ l1.handles = [] ∧
      l1.lists = [] ∧ l1.acquired_handles ≤ 1 ∧ l1.acquired_lists ≤ 1 := by
  obtain ⟨l1, h1, hag1⟩ := Ledger.run_agrees Ledger.empty created calls
    (Ledger.agrees_created created hp hh) hok
  obtain ⟨l2, h2, hfin⟩ := Ledger.destructor_releases l1 _ hag1
  refine ⟨l2, ?_, hfin⟩
  unfold lifetime
  rw [Ledger.run_append, h1]
  exact h2

/-! ## The claims -/

/-- C1. For every instance and every two consecutive request attempts (any mix
of `Get`, five-argument `Get` and `Post`, any arguments, any behaviour of the
engine, a thrown exception included), the second attempt returns a null result,
makes no call at all (so none to the engine), and leaves every field of
the instance as the first attempt left it. -/
theorem second_attempt_is_rejected (self : HttpsClient) (env1 env2 : Env) (r1 r2 : Request) :
    ((self.request env1 r1).self.request env2 r2).ret = none ∧
    ((self.request env1 r1).self.request env2 r2).trace = [] ∧
    ((self.request env1 r1).self.request env2 r2).self = (self.request env1 r1).self := by
  rw [request_used _ env2 r2 (request_flag self env1 r1)]
  exact ⟨rfl, rfl, rfl⟩

/-- C2, the claim as stated fails: on a fresh instance, with a handle acquired,
`Get` returns a null result when `std::make_shared` throws inside `DoReq` and
`DoReqWithException` catches the exception. -/
theorem absent_without_reuse_or_init_failure :
    (HttpsClient.new.request badAllocEnv okRequest).ret = none ∧
    ¬ (HttpsClient.new.get_flag_ = true ∨ badAllocEnv.easy_init = none) := by
  decide

/-- C2, amended. The result of `Get` or `Post` is null if and only if
the instance had already been used, or `curl_easy_init` failed, or `DoReq` threw an
exception (which `DoReqWithException` catches); so, when nothing throws, it is
null if and only if the instance had been used or `curl_easy_init` failed, and
in every other case a result object is returned. -/
theorem absent_iff (self : HttpsClient) (env : Env) (r : Request) :
    ((self.request env r).ret = none ↔
      (self.get_flag_ = true ∨ env.easy_init = none ∨
        ∃ e, (self.DoReq env r.req_type r.path r.headers r.body r.on_data r.progress).ret
              = .error e)) ∧
    (env.throws = none →
      ((self.request env r).ret = none ↔ (self.get_flag_ = true ∨ env.easy_init = none))) := by
  rw [request_ret]
  by_cases hu : self.get_flag_ = true
  · simp [DoReq_used _ _ _ _ _ _ _ _ hu, hu]
  have hu : self.get_flag_ = false := by simpa using hu
  cases hi : env.easy_init with
  | none => simp [DoReq_init_fails _ _ _ _ _ _ _ _ hu hi]
  | some pcurl =>
    rcases DoReq_cases self env r.req_type r.path r.headers r.body r.on_data r.progress
      pcurl hu hi with ⟨ht, h⟩ | ⟨ht, _, _, h⟩ | ⟨ht, _, _, h⟩ | ⟨ht, _, _, h⟩ | ⟨ht, _, _, h⟩
        | ⟨ht, _, _, h⟩
    all_goals simp [h, hu, ht]

/-- C2, amended, at the scenario request: nothing throws, the instance is fresh
and the handle is acquired, so a result object is returned. -/
theorem absent_iff_witness :
    helloEnv.throws = none ∧
    ((HttpsClient.new.request helloEnv okRequest).ret = none ↔
      (HttpsClient.new.get_flag_ = true ∨ helloEnv.easy_init = none)) :=
  ⟨rfl, (absent_iff HttpsClient.new helloEnv okRequest).2 rfl⟩

/-- C3, the claim as stated fails: the engine rejects the method string
(`CURLOPT_CUSTOMREQUEST`, a configuration step whose result `DoReq` does not
look at), the transfer succeeds, and the result returned carries the success
code. -/
theorem status_ok_after_rejected_method :
    methodRejectedEnv.setopt (CurlOption.CUSTOMREQUEST "GET") ≠ CURLE_OK ∧
    Event.curl_easy_setopt 1 (CurlOption.CUSTOMREQUEST "GET") 27
      ∈ (HttpsClient.new.request methodRejectedEnv okRequest).trace ∧
    (HttpsClient.new.request methodRejectedEnv okRequest).ret
      = some { code := CURLE_OK, body := [104, 101, 108, 108, 111] } := by
  decide

/-- C3, amended. For every request on an unused instance that returns a result
object: if the header attachment failed, or the URL was rejected, or the
transfer itself failed, the status code of the result differs from `CURLE_OK`.
(The configuration steps of lines 121-151 are not checked by `DoReq`; their
failure alone is not reflected in the status.) -/
theorem failure_is_reported (self : HttpsClient) (env : Env) (r : Request) (res : HttpsResult)
    (hr : Reachable self) (hu : self.get_flag_ = false)
    (hret : (self.request env r).ret = some res)
    (hfail : (r.headers ≠ [] ∧ env.setopt (.HTTPHEADER (headerList env [] r.headers)) ≠ CURLE_OK) ∨
      env.setopt (.URL (c_str r.path)) ≠ CURLE_OK ∨ env.perform ≠ CURLE_OK) :
    res.code ≠ CURLE_OK := by
  have hh : self.header_ = [] := (hr.unused hu).2
  rw [request_ret] at hret
  cases hi : env.easy_init with
  | none => simp [DoReq_init_fails _ _ _ _ _ _ _ _ hu hi] at hret
  | some pcurl =>
    rcases DoReq_cases self env r.req_type r.path r.headers r.body r.on_data r.progress
      pcurl hu hi with ⟨ht, h⟩ | ⟨ht, _, hc, h⟩ | ⟨ht, _, hc, h⟩ | ⟨ht, _, _, h⟩ | ⟨ht, _, _, h⟩
        | ⟨ht, hp, hc, h⟩
    · simp [h] at hret
    · simp only [h, Option.some.injEq] at hret
      rw [← hret]; exact hc
    · simp only [h, Option.some.injEq] at hret
      rw [← hret]; exact hc
    · simp [h] at hret
    · simp [h] at hret
    · simp only [h, Option.some.injEq] at hret
      rw [← hret]
      have hperf : env.perform ≠ CURLE_OK := by
        rcases hfail with ⟨hne, hhc⟩ | hurl | hperf
        · rcases hp with hp | hp
          · exact absurd hp hne
          · rw [hh] at hp; exact absurd hp hhc
        · exact absurd hc hurl
        · exact hperf
      exact transfer_code_ne_ok _ _ _ _ hperf

/-- C3, amended, at a rejected URL: the result carries the engine's code 3. -/
theorem failure_is_reported_witness :
    (HttpsClient.new.request urlRejectedEnv (Request.Post "nowhere" [] "x")).ret
      = some { code := 3, body := [] } ∧
    (3 : CURLcode) ≠ CURLE_OK :=
  ⟨by decide,
   failure_is_reported HttpsClient.new urlRejectedEnv (Request.Post "nowhere" [] "x")
     { code := 3, body := [] } Reachable.new rfl (by decide) (Or.inr (Or.inl (by decide)))⟩

/-- C6. `SetTimeout(c, r)` sets the connect timeout to `c` if `c > 0` and leaves
it otherwise, sets the receive timeout to `r` if `r > 0` and leaves it
otherwise, and changes no other field (the used flag in particular). A
fresh instance, from either constructor, has the timeouts 10 and 30; on it
`SetTimeout(0, 0)` changes nothing and `SetTimeout(5, 0)` yields (5, 30). -/
theorem SetTimeout_overrides_positive_only (self : HttpsClient) (c r : Nat)
    (host client_cert_path client_key_path : String) :
    self.SetTimeout c r
      = { self with
          connect_timeout_ := if c > 0 then c else self.connect_timeout_,
          recv_data_timeout_ := if r > 0 then r else self.recv_data_timeout_ } ∧
    (self.SetTimeout c r).get_flag_ = self.get_flag_ ∧
    HttpsClient.new.connect_timeout_ = 10 ∧ HttpsClient.new.recv_data_timeout_ = 30 ∧
    (HttpsClient.newWith host client_cert_path client_key_path).connect_timeout_ = 10 ∧
    (HttpsClient.newWith host client_cert_path client_key_path).recv_data_timeout_ = 30 ∧
    HttpsClient.new.SetTimeout 0 0 = HttpsClient.new ∧
    HttpsClient.new.SetTimeout 5 0 = { HttpsClient.new with connect_timeout_ := 5 } ∧
    (HttpsClient.new.SetTimeout 5 0).recv_data_timeout_ = 30 := by
  refine ⟨SetTimeout_spec self c r, ?_, rfl, rfl, rfl, rfl, rfl, rfl, rfl⟩
  rw [SetTimeout_spec]

/-- C4. A request without data callback (three-argument `Get`, `Post`, or the
five-argument `Get` with a null `on_data`) on an unused instance reaches the
transfer (handle acquired, nothing thrown, headers and URL accepted) with
`OnCurlString` registered on the result body. Then, for every sequence of
well-formed deliveries, the body of the returned result is the concatenation of
the delivered chunks in delivery order, its length is the sum of the counts
`size * nmemb`, `OnCurlString` appends each chunk whole and returns its count
`size * nmemb`, and the status is the engine's own: no callback aborts the
transfer. -/
theorem buffered_body_is_concatenation (self : HttpsClient) (env : Env) (r : Request)
    (pcurl : CURL) (hr : Reachable self) (hu : self.get_flag_ = false)
    (hcb : r.on_data = none) (hi : env.easy_init = some pcurl) (ht : env.throws = none)
    (hh : r.headers = [] ∨ env.setopt (.HTTPHEADER (headerList env [] r.headers)) = CURLE_OK)
    (hurl : env.setopt (.URL (c_str r.path)) = CURLE_OK)
    (hf : env.setopt (.WRITEFUNCTION .OnCurlString) = CURLE_OK)
    (hw : env.setopt (.WRITEDATA .res_body) = CURLE_OK)
    (hd : ∀ d ∈ env.deliveries, d.wellFormed) :
    (self.request env r).ret
      = some { code := env.perform, body := received env.deliveries } ∧
    (received env.deliveries).length = receivedCount env.deliveries ∧
    (∀ buffer size nmemb stream, Delivery.write buffer size nmemb ∈ env.deliveries →
      OnCurlString buffer size nmemb stream = (stream ++ buffer, size * nmemb)) := by
  refine ⟨?_, received_length _ hd, ?_⟩
  · rw [request_transfer self env r pcurl hr hu hi ht hh hurl, hcb]
    simp only [transferOf_code _ _ _ _ _ _ _ hd, transferOf_body_string _ _ _ _ _ _ hf hw hd]
  · intro buffer size nmemb stream hmem
    have hwf := hd _ hmem
    exact Prod.ext (OnCurlString_stream _ _ _ _ hwf.1 hwf.2) (OnCurlString_ret _ _ _ _ hwf.2)

theorem helloEnv_wellFormed : ∀ d ∈ helloEnv.deliveries, d.wellFormed := by
  decide

/-- C4 at the scenario of the specification: the server sends `"hello"` in two
chunks and the result carries the success code and the body `"hello"`. -/
theorem buffered_body_is_concatenation_witness :
    (HttpsClient.new.request helloEnv okRequest).ret
      = some { code := CURLE_OK, body := [104, 101, 108, 108, 111] } :=
  (buffered_body_is_concatenation HttpsClient.new helloEnv okRequest 1 Reachable.new rfl rfl rfl
    rfl (Or.inl rfl) rfl rfl rfl helloEnv_wellFormed).1

/-- C5. A five-argument `Get` with a data callback `cb` on an unused instance
reaches the transfer with `OnCurlData` registered on `&on_data_`. Then, for
every sequence of well-formed deliveries, the body of the returned result is
empty, the invocations of `cb` are exactly one per delivered chunk, in delivery
order, each with the chunk's buffer and the count `size * nmemb`, and the bytes
so forwarded, concatenated, are the whole response. -/
theorem streamed_chunks_are_forwarded (self : HttpsClient) (env : Env) (path : String)
    (headers : List String) (body : String) (cb : Nat) (progress : HttpsProgress)
    (pcurl : CURL) (hr : Reachable self) (hu : self.get_flag_ = false)
    (hi : env.easy_init = some pcurl) (ht : env.throws = none)
    (hh : headers = [] ∨ env.setopt (.HTTPHEADER (headerList env [] headers)) = CURLE_OK)
    (hurl : env.setopt (.URL (c_str path)) = CURLE_OK)
    (hf : env.setopt (.WRITEFUNCTION .OnCurlData) = CURLE_OK)
    (hw : env.setopt (.WRITEDATA .on_data_) = CURLE_OK)
    (hd : ∀ d ∈ env.deliveries, d.wellFormed) :
    (self.Get5 env path headers body (some cb) progress).ret
      = some { code := env.perform, body := [] } ∧
    (self.Get5 env path headers body (some cb) progress).trace.filter Event.isOnData
      = dataCalls cb env.deliveries ∧
    forwarded ((self.Get5 env path headers body (some cb) progress).trace.filter Event.isOnData)
      = received env.deliveries := by
  have hreq := request_transfer self env (.Get5 path headers body (some cb) progress) pcurl hr hu
    hi ht hh hurl
  have hreq2 : self.Get5 env path headers body (some cb) progress
      = self.request env (.Get5 path headers body (some cb) progress) := rfl
  rw [hreq2, hreq]
  simp only [Request.req_type, Request.headers, Request.body, Request.on_data, Request.progress,
    Request.path]
  have hcalls : (urlTrace self env pcurl path headers
        ++ setoptCalls env pcurl (uncheckedOptions self "GET" body (some cb) progress)
        ++ [Event.curl_easy_perform pcurl]
        ++ (transferOf self env "GET" headers body (some cb) progress).calls
        ++ releaseTrace pcurl (headerList env self.header_ headers)).filter Event.isOnData
      = dataCalls cb env.deliveries := by
    rw [transfer_trace_filter _ isOnData_of_engine, transferOf_calls_data _ _ _ _ _ _ _ hf hw hd]
  refine ⟨?_, hcalls, ?_⟩
  · rw [transferOf_code _ _ _ _ _ _ _ hd, transferOf_body_data]
  · rw [hcalls, forwarded_dataCalls _ _ hd]

/-- C5 at a server sending `"hello"` in two chunks to the data callback 7. -/
theorem streamed_chunks_are_forwarded_witness :
    (HttpsClient.new.Get5 helloEnv "https://example.test/ok" [] "" (some 7) none).trace.filter
        Event.isOnData
      = [Event.on_data 7 [104, 101, 108] 3, Event.on_data 7 [108, 111] 2] :=
  (streamed_chunks_are_forwarded HttpsClient.new helloEnv "https://example.test/ok" [] "" 7 none
    1 Reachable.new rfl rfl rfl (Or.inl rfl) rfl rfl rfl helloEnv_wellFormed).2.1

/-- C7. A five-argument `Get` with a progress callback `cb` on an
unused instance reaches the transfer with `OnCurlProgress` registered and progress
switched on. Then, for every sequence of well-formed deliveries, `cb` is invoked
exactly for the reports with `dltotal > 0` and `dlnow > 0`, in report order,
with the arguments `(dlnow, dltotal)` converted to `uint64_t` (for byte counts
`n`, `m` below `2^64` these are `n` and `m` themselves); it is not invoked at
all when no report has `dltotal > 0`; `OnCurlProgress` returns 0 for every
report, and the status of the result is the engine's own. -/
theorem progress_is_reported_when_positive (self : HttpsClient) (env : Env) (path : String)
    (headers : List String) (body : String) (on_data : HttpsOnData) (cb : Nat) (pcurl : CURL)
    (hr : Reachable self) (hu : self.get_flag_ = false)
    (hi : env.easy_init = some pcurl) (ht : env.throws = none)
    (hh : headers = [] ∨ env.setopt (.HTTPHEADER (headerList env [] headers)) = CURLE_OK)
    (hurl : env.setopt (.URL (c_str path)) = CURLE_OK)
    (hf : env.setopt .PROGRESSFUNCTION = CURLE_OK)
    (hp : env.setopt .PROGRESSDATA = CURLE_OK)
    (hn : env.setopt (.NOPROGRESS 0) = CURLE_OK)
    (hd : ∀ d ∈ env.deliveries, d.wellFormed) :
    (self.Get5 env path headers body on_data (some cb)).trace.filter Event.isProgress
      = progressCalls cb env.deliveries ∧
    ((∀ dltotal dlnow ultotal ulnow,
        Delivery.progress dltotal dlnow ultotal ulnow ∈ env.deliveries → dltotal.gtZero = false) →
      (self.Get5 env path headers body on_data (some cb)).trace.filter Event.isProgress = []) ∧
    (∀ dltotal dlnow ultotal ulnow,
      OnCurlProgress (some cb) dltotal dlnow ultotal ulnow
        = (if dltotal.gtZero = true ∧ dlnow.gtZero = true then
             [Event.progress cb dlnow.toUInt64 dltotal.toUInt64]
           else [], 0)) ∧
    (∀ (n m : Nat) ultotal ulnow, 0 < n → n < 2 ^ 64 → 0 < m → m < 2 ^ 64 →
      OnCurlProgress (some cb) (Double.fin (m : ℚ)) (Double.fin (n : ℚ)) ultotal ulnow
        = ([Event.progress cb n m], 0)) ∧
    (∀ q : ℚ, (Double.fin q).gtZero = true ↔ 0 < q) ∧
    Double.nan.gtZero = false ∧
    (∃ res, (self.Get5 env path headers body on_data (some cb)).ret = some res ∧
      res.code = env.perform) := by
  have hreq := request_transfer self env (.Get5 path headers body on_data (some cb)) pcurl hr hu
    hi ht hh hurl
  have hreq2 : self.Get5 env path headers body on_data (some cb)
      = self.request env (.Get5 path headers body on_data (some cb)) := rfl
  rw [hreq2, hreq]
  simp only [Request.req_type, Request.headers, Request.body, Request.on_data, Request.progress,
    Request.path]
  have hcalls : (urlTrace self env pcurl path headers
        ++ setoptCalls env pcurl (uncheckedOptions self "GET" body on_data (some cb))
        ++ [Event.curl_easy_perform pcurl]
        ++ (transferOf self env "GET" headers body on_data (some cb)).calls
        ++ releaseTrace pcurl (headerList env self.header_ headers)).filter Event.isProgress
      = progressCalls cb env.deliveries := by
    rw [transfer_trace_filter _ isProgress_of_engine,
      transferOf_calls_progress _ _ _ _ _ _ _ hf hp hn hd]
  refine ⟨hcalls, ?_, ?_, ?_, ?_, rfl, ⟨_, rfl, transferOf_code _ _ _ _ _ _ _ hd⟩⟩
  · intro hz
    rw [hcalls, progressCalls_unknown_total _ _ hz]
  · intro dltotal dlnow ultotal ulnow
    exact Prod.ext (OnCurlProgress_calls _ _ _ _ _) (OnCurlProgress_ret _ _ _ _ _)
  · intro n m ultotal ulnow hn0 hn1 hm0 hm1
    refine Prod.ext ?_ (OnCurlProgress_ret _ _ _ _ _)
    rw [OnCurlProgress_calls]
    simp [Double.gtZero_natCast _ hn0, Double.gtZero_natCast _ hm0,
      Double.toUInt64_natCast _ hn1, Double.toUInt64_natCast _ hm1]
  · intro q
    simp [Double.gtZero]

/-- C7 at a transfer of 5 bytes reported after 3 and after 5 bytes: the
progress callback 8 is invoked with (3, 5) and then with (5, 5). -/
theorem progress_is_reported_when_positive_witness :
    (HttpsClient.new.Get5 helloEnv "https://example.test/ok" [] "" none (some 8)).trace.filter
        Event.isProgress
      = [Event.progress 8 3 5, Event.progress 8 5 5] :=
  (progress_is_reported_when_positive HttpsClient.new helloEnv "https://example.test/ok" [] ""
    none 8 1 Reachable.new rfl rfl rfl (Or.inl rfl) rfl rfl rfl rfl helloEnv_wellFormed).1.trans
    (by decide)

/-- C8, the claim as stated fails, in two ways. When the second
`curl_slist_append` returns null, line 103 stores the null in `header_` and
`CURLOPT_HTTPHEADER` is set to the null list, not to the two headers supplied.
When a header has a NUL inside, the engine is given its `c_str()`, the
characters before the NUL, not the string supplied. -/
theorem attached_list_differs_from_supplied :
    (twoHeaderRequest.headers ≠ [] ∧
      attachedHeaders (HttpsClient.new.request appendFailsEnv twoHeaderRequest).trace = [[]] ∧
      attachedHeaders (HttpsClient.new.request appendFailsEnv twoHeaderRequest).trace
        ≠ [twoHeaderRequest.headers]) ∧
    (nulHeaderRequest.headers ≠ [] ∧
      attachedHeaders (HttpsClient.new.request helloEnv nulHeaderRequest).trace = [["A"]] ∧
      attachedHeaders (HttpsClient.new.request helloEnv nulHeaderRequest).trace
        ≠ [nulHeaderRequest.headers]) := by
  decide

/-- C8, amended. For a request on an unused instance that acquires its handle
and creates its result object, and in which every `curl_slist_append` succeeds:
with a non-empty header list, the strings passed to `curl_slist_append` are the
C strings of the supplied strings, in the supplied order, and
`CURLOPT_HTTPHEADER` is set exactly once, to the list of those C strings (same
length, same order, nothing before it from earlier state); with an empty header
list, nothing is appended and `CURLOPT_HTTPHEADER` is never set. The C string
of a string without NUL is the string itself, so for such headers the list
attached is the list supplied. -/
theorem headers_are_attached_in_order (self : HttpsClient) (env : Env) (r : Request)
    (pcurl : CURL) (hr : Reachable self) (hu : self.get_flag_ = false)
    (hi : env.easy_init = some pcurl) (ht : env.throws ≠ some .make_shared)
    (hok : appendsSucceed env [] r.headers = true) :
    (r.headers ≠ [] →
      attachedHeaders (self.request env r).trace = [r.headers.map c_str] ∧
      appendedStrings (self.request env r).trace = r.headers.map c_str) ∧
    (r.headers = [] →
      attachedHeaders (self.request env r).trace = [] ∧
      appendedStrings (self.request env r).trace = []) ∧
    (r.headers.map c_str).length = r.headers.length ∧
    ((∀ s ∈ r.headers, Char.ofNat 0 ∉ s.data) → r.headers.map c_str = r.headers) := by
  have h0 : self.header_ = [] := (hr.unused hu).2
  have h := DoReq_header_calls self env r.req_type r.path r.headers r.body r.on_data r.progress
    pcurl hu hi ht
  rw [request_trace]
  rw [h0, headerList_of_succeed env [] r.headers hok, List.nil_append] at h
  refine ⟨?_, ?_, List.length_map _ _, map_c_str_of_no_nul _⟩
  · intro hne
    simpa [hne] using h
  · intro he
    simpa [he] using h

/-- C8, amended, at two headers (both are appended, in order, and attached
once) and at no header (nothing is attached). -/
theorem headers_are_attached_in_order_witness :
    attachedHeaders
        (HttpsClient.new.request helloEnv
          (Request.Post "https://example.test/ok" ["Accept: */*", "X-Trace: 1"] "x")).trace
      = [["Accept: */*", "X-Trace: 1"]] ∧
    attachedHeaders (HttpsClient.new.request helloEnv okRequest).trace = [] :=
  ⟨(((headers_are_attached_in_order HttpsClient.new helloEnv
      (Request.Post "https://example.test/ok" ["Accept: */*", "X-Trace: 1"] "x") 1
      Reachable.new rfl rfl (by decide) (by decide)).1 (by decide)).1).trans (by decide),
   ((headers_are_attached_in_order HttpsClient.new helloEnv okRequest 1
      Reachable.new rfl rfl (by decide) (by decide)).2.1 rfl).1⟩

/-- C10, the code at the failing input. A fresh instance serves one `Post` with
the headers "A: 1" and "B: 2", the second `curl_slist_append` returns null, and
the destructor runs: line 103 has overwritten `header_` with the null, so
neither line 158 nor the destructor frees the list holding "A: 1", which is
still alive at the end of the lifetime. With a third header the loop starts a
second list: two lists are acquired, and the first is never released. -/
theorem header_list_leaks_when_append_fails :
    Ledger.empty.run (lifetime HttpsClient.new [Call.request twoHeaderRequest appendFailsEnv])
      = some { handles := [], lists := [["A: 1"]], acquired_handles := 1,
               acquired_lists := 1 } ∧
    Ledger.empty.run
        (lifetime HttpsClient.new
          [Call.request (Request.Post "https://example.test/ok" ["A: 1", "B: 2", "C: 3"] "x")
            appendFailsEnv])
      = some { handles := [], lists := [["A: 1"]], acquired_handles := 1,
               acquired_lists := 2 } := by
  decide

end agile.https
